import Mathlib

/-!
# go-nwc: connection-string parsing and the request/response session

A shallow embedding of `utils.go` (`ParseNWCURI`) and `client.go`
(`sendRequest` and the seven operations built on it).

Go strings are byte sequences.  A Go string is represented by a `List Char`
in which every character stands for one byte; an ASCII literal such as
`"relay".toList` is the Go string with the same text.

The functions of the Go standard library that the code calls (`net/url`,
`encoding/json`) are embedded from their Go sources (Go 1.22), under the
names they have there.
-/

namespace NWC

/-- A Go string: a sequence of bytes. -/
abbrev Str := List Char

/-! ## `strings` helpers -/

/-- The Go call `strings.Cut(s, sep)` for a one-byte separator: text before
the first `sep`, text after it, and whether `sep` was found. -/
def cut (sep : Char) : Str → Str × Str × Bool
  | [] => ([], [], false)
  | c :: cs =>
    if c = sep then ([], cs, true)
    else
      match cut sep cs with
      | (before, after, found) => (c :: before, after, found)

/-- The Go call `strings.HasPrefix(s, p)`. -/
def startsWith : Str → Str → Bool
  | _, [] => true
  | [], _ :: _ => false
  | c :: cs, p :: ps => c == p && startsWith cs ps

/-- The Go call `strings.Index(s, sub)`: offset of the first occurrence. -/
def indexOf (sub : Str) : Str → Option Nat
  | [] => if sub = [] then some 0 else none
  | c :: cs =>
    if startsWith (c :: cs) sub then some 0
    else (indexOf sub cs).map (· + 1)

/-- The Go call `strings.LastIndex(s, sep)` for a one-byte separator. -/
def lastIndexOf (sep : Char) : Str → Option Nat
  | [] => none
  | c :: cs =>
    match lastIndexOf sep cs with
    | some i => some (i + 1)
    | none => if c = sep then some 0 else none

/-- The Go call `strings.ToLower` on ASCII letters (schemes are ASCII). -/
def toLower (s : Str) : Str :=
  s.map fun c => if 'A'.toNat ≤ c.toNat ∧ c.toNat ≤ 'Z'.toNat then Char.ofNat (c.toNat + 32) else c

/-! ## `net/url` -/

namespace url

/-- The errors `net/url` reports while parsing. -/
inductive Error where
  /-- `EscapeError(s)`: invalid URL escape. -/
  | escape (s : Str)
  /-- `InvalidHostError(s)`: invalid character in host name. -/
  | invalidHost (s : Str)
  /-- "net/url: invalid control character in URL". -/
  | controlCharacter
  /-- "missing protocol scheme". -/
  | missingScheme
  /-- "first path segment in URL cannot contain colon". -/
  | colonInFirstSegment
  /-- "missing ']' in host". -/
  | missingBracket
  /-- "invalid port %q after host". -/
  | invalidPort (s : Str)
  /-- "net/url: invalid userinfo". -/
  | invalidUserinfo
  /-- "invalid semicolon separator in query". -/
  | semicolon
  deriving DecidableEq, Repr

/-- The `encoding` modes of `net/url` that decoding distinguishes. -/
inductive Encoding where
  | encodePath
  | encodeHost
  | encodeZone
  | encodeUserPassword
  | encodeQueryComponent
  | encodeFragment
  deriving DecidableEq, Repr

/-- The parts of Go's `url.URL` that parsing fills in and `ParseNWCURI` can
observe (`Host`, `Path`, `RawQuery`), with `Scheme`, `Opaque` and `Fragment`.
`User`, `RawPath`, `RawFragment`, `ForceQuery` and `OmitHost` are not
represented; the errors that arise while computing them are. -/
structure URL where
  Scheme : Str := []
  OpaqueText : Str := []
  Host : Str := []
  Path : Str := []
  RawQuery : Str := []
  Fragment : Str := []
  deriving DecidableEq, Repr

def isAlpha (c : Char) : Bool :=
  ('a'.toNat ≤ c.toNat && c.toNat ≤ 'z'.toNat) || ('A'.toNat ≤ c.toNat && c.toNat ≤ 'Z'.toNat)

def isDigit (c : Char) : Bool :=
  '0'.toNat ≤ c.toNat && c.toNat ≤ '9'.toNat

/-- Go `ishex`. -/
def ishex (c : Char) : Bool :=
  isDigit c || ('a'.toNat ≤ c.toNat && c.toNat ≤ 'f'.toNat)
    || ('A'.toNat ≤ c.toNat && c.toNat ≤ 'F'.toNat)

/-- Go `unhex`. -/
def unhex (c : Char) : Nat :=
  if isDigit c then c.toNat - '0'.toNat
  else if 'a'.toNat ≤ c.toNat ∧ c.toNat ≤ 'f'.toNat then c.toNat - 'a'.toNat + 10
  else if 'A'.toNat ≤ c.toNat ∧ c.toNat ≤ 'F'.toNat then c.toNat - 'A'.toNat + 10
  else 0

/-- Go `shouldEscape(c, encodeHost)`: the only mode `unescape` asks about. -/
def shouldEscapeHost (c : Char) : Bool :=
  if isAlpha c || isDigit c then false
  else if c ∈ ['!', '$', '&', '\'', '(', ')', '*', '+', ',', ';', '=', ':', '[', ']', '<', '>', '"']
  then false
  else if c ∈ ['-', '_', '.', '~'] then false
  else true

/-- Go `stringContainsCTLByte`. -/
def stringContainsCTLByte (s : Str) : Bool :=
  s.any fun b => b.toNat < ' '.toNat || b.toNat == 0x7f

/-- First pass of Go `unescape`: every `%` starts a well-formed escape, and
host and zone text holds only what it may. -/
def unescapeCheck (mode : Encoding) : Str → Except Error Unit
  | [] => .ok ()
  | c :: rest =>
    if c = '%' then
      match rest with
      | a :: b :: rest2 =>
        if !ishex a || !ishex b then .error (.escape [c, a, b])
        else if mode = .encodeHost && unhex a < 8 && [c, a, b] ≠ "%25".toList then
          .error (.escape [c, a, b])
        else if mode = .encodeZone && [c, a, b] ≠ "%25".toList
            && unhex a * 16 + unhex b ≠ ' '.toNat
            && shouldEscapeHost (Char.ofNat (unhex a * 16 + unhex b)) then
          .error (.escape [c, a, b])
        else unescapeCheck mode rest2
      | _ => .error (.escape (c :: rest))
    else if c = '+' then unescapeCheck mode rest
    else if (mode = .encodeHost || mode = .encodeZone) && c.toNat < 0x80 && shouldEscapeHost c then
      .error (.invalidHost [c])
    else unescapeCheck mode rest

/-- Second pass of Go `unescape`: `%XX` becomes the byte, `+` becomes a space
in a query component.  (Go returns the input itself when it holds no `%` and
no convertible `+`; this pass returns the same text then.) -/
def unescapeBuild (mode : Encoding) : Str → Str
  | [] => []
  | c :: rest =>
    if c = '%' then
      match rest with
      | a :: b :: rest2 => Char.ofNat (unhex a * 16 + unhex b) :: unescapeBuild mode rest2
      | _ => c :: rest
    else if c = '+' then
      (if mode = .encodeQueryComponent then ' ' else '+') :: unescapeBuild mode rest
    else c :: unescapeBuild mode rest

/-- Go `unescape(s, mode)`. -/
def unescape (s : Str) (mode : Encoding) : Except Error Str :=
  match unescapeCheck mode s with
  | .error e => .error e
  | .ok () => .ok (unescapeBuild mode s)

/-- Go `url.QueryUnescape`. -/
def QueryUnescape (s : Str) : Except Error Str :=
  unescape s .encodeQueryComponent

/-- Go `getScheme`; `i` counts the bytes already read. -/
def getSchemeFrom (rawURL : Str) : Nat → Str → Except Error (Str × Str)
  | _, [] => .ok ([], rawURL)
  | i, c :: cs =>
    if isAlpha c then getSchemeFrom rawURL (i + 1) cs
    else if isDigit c || c = '+' || c = '-' || c = '.' then
      if i = 0 then .ok ([], rawURL) else getSchemeFrom rawURL (i + 1) cs
    else if c = ':' then
      if i = 0 then .error .missingScheme else .ok (rawURL.take i, cs)
    else .ok ([], rawURL)

def getScheme (rawURL : Str) : Except Error (Str × Str) :=
  getSchemeFrom rawURL 0 rawURL

/-- Go `validOptionalPort`. -/
def validOptionalPort : Str → Bool
  | [] => true
  | c :: digits => c = ':' && digits.all isDigit

/-- Go `validUserinfo`. -/
def validUserinfo (s : Str) : Bool :=
  s.all fun r => isAlpha r || isDigit r ||
    r ∈ ['-', '.', '_', ':', '~', '!', '$', '&', '\'', '(', ')', '*', '+', ',', ';', '=', '%', '@']

/-- Go `parseHost`. -/
def parseHost (host : Str) : Except Error Str :=
  if startsWith host ['['] then
    match lastIndexOf ']' host with
    | none => .error .missingBracket
    | some i =>
      let colonPort := host.drop (i + 1)
      if !validOptionalPort colonPort then .error (.invalidPort colonPort)
      else
        match indexOf "%25".toList (host.take i) with
        | some zone =>
          match unescape (host.take zone) .encodeHost with
          | .error e => .error e
          | .ok host1 =>
            match unescape ((host.take i).drop zone) .encodeZone with
            | .error e => .error e
            | .ok host2 =>
              match unescape (host.drop i) .encodeHost with
              | .error e => .error e
              | .ok host3 => .ok (host1 ++ host2 ++ host3)
        | none => unescape host .encodeHost
  else
    match lastIndexOf ':' host with
    | some i =>
      let colonPort := host.drop i
      if !validOptionalPort colonPort then .error (.invalidPort colonPort)
      else unescape host .encodeHost
    | none => unescape host .encodeHost

/-- Go `parseAuthority`, returning the host; the user information is checked
and decoded (its errors are reported) but not kept. -/
def parseAuthority (authority : Str) : Except Error Str :=
  match lastIndexOf '@' authority with
  | none => parseHost authority
  | some i =>
    match parseHost (authority.drop (i + 1)) with
    | .error e => .error e
    | .ok host =>
      let userinfo := authority.take i
      if !validUserinfo userinfo then .error .invalidUserinfo
      else if !userinfo.contains ':' then
        match unescape userinfo .encodeUserPassword with
        | .error e => .error e
        | .ok _ => .ok host
      else
        match cut ':' userinfo with
        | (username, password, _) =>
          match unescape username .encodeUserPassword with
          | .error e => .error e
          | .ok _ =>
            match unescape password .encodeUserPassword with
            | .error e => .error e
            | .ok _ => .ok host

/-- Go `(*URL).setPath`: `Path` is the decoded text. -/
def setPath (u : URL) (p : Str) : Except Error URL :=
  match unescape p .encodePath with
  | .error e => .error e
  | .ok path => .ok { u with Path := path }

/-- Go `parse(rawURL, viaRequest = false)`. -/
def parse (rawURL : Str) : Except Error URL :=
  if stringContainsCTLByte rawURL then .error .controlCharacter
  else if rawURL = ['*'] then .ok { Path := ['*'] }
  else
    match getScheme rawURL with
    | .error e => .error e
    | .ok (scheme, rest0) =>
      let scheme := toLower scheme
      let split : Str × Str :=
        if rest0.getLast? = some '?' && rest0.count '?' = 1 then (rest0.dropLast, [])
        else
          match cut '?' rest0 with
          | (before, after, _) => (before, after)
      let rest := split.1
      let u : URL := { Scheme := scheme, RawQuery := split.2 }
      if !startsWith rest ['/'] && scheme ≠ [] then
        .ok { u with OpaqueText := rest }
      else if !startsWith rest ['/'] && (cut '/' rest).1.contains ':' then
        .error .colonInFirstSegment
      else if (scheme ≠ [] || !startsWith rest "///".toList) && startsWith rest "//".toList then
        let authority0 := rest.drop 2
        let parts : Str × Str :=
          match indexOf ['/'] authority0 with
          | some i => (authority0.take i, authority0.drop i)
          | none => (authority0, [])
        match parseAuthority parts.1 with
        | .error e => .error e
        | .ok host => setPath { u with Host := host } parts.2
      else setPath u rest

/-- Go `(*URL).setFragment`. -/
def setFragment (u : URL) (f : Str) : Except Error URL :=
  match unescape f .encodeFragment with
  | .error e => .error e
  | .ok frag => .ok { u with Fragment := frag }

/-- Go `url.Parse`. -/
def Parse (rawURL : Str) : Except Error URL :=
  match cut '#' rawURL with
  | (u, frag, _) =>
    match parse u with
    | .error e => .error e
    | .ok parsed => if frag = [] then .ok parsed else setFragment parsed frag

/-- Go `url.Values`: the values of each key in the order they were added,
kept as the list of (key, value) pairs in that order. -/
abbrev Values := List (Str × Str)

/-- Go `strings.Split(query, "&")`: the pieces the loop of `parseQuery`
takes off one by one with `strings.Cut(query, "&")`. -/
def pieces : Str → List Str
  | [] => [[]]
  | c :: cs =>
    match pieces cs with
    | [] => [[c]]
    | p :: ps => if c = '&' then [] :: p :: ps else (c :: p) :: ps

/-- One turn of the loop of Go `parseQuery`: a piece that holds `;`, has no
text, or does not decode is skipped; the others add a (key, value) pair. -/
def parsePiece (key : Str) : Option (Str × Str) :=
  if key.contains ';' then none
  else if key = [] then none
  else
    match cut '=' key with
    | (k, v, _) =>
      match QueryUnescape k with
      | .error _ => none
      | .ok k1 =>
        match QueryUnescape v with
        | .error _ => none
        | .ok v1 => some (k1, v1)

/-- Go `(*URL).Query`: `ParseQuery(u.RawQuery)` with its error dropped, so
the pairs that parse are kept. -/
def URL.Query (u : URL) : Values :=
  (pieces u.RawQuery).filterMap parsePiece

/-- Go `Values.Get`: the first value of `key`, or `""`. -/
def Values.Get (v : Values) (key : Str) : Str :=
  match v.find? (fun kv => kv.1 = key) with
  | some kv => kv.2
  | none => []

end url

/-! ## `utils.go` -/

/-- The error values the package creates or passes on. -/
inductive Error where
  /-- `fmt.Errorf("relay parametresi eksik")`. -/
  | relayMissing
  /-- `fmt.Errorf("secret parametresi eksik")`. -/
  | secretMissing
  /-- `errors.New("yanıt alınamadı")`. -/
  | noResponse
  /-- An error of `url.Parse`. -/
  | url (e : url.Error)
  /-- The `*json.SyntaxError` of `json.Unmarshal`: the text is not JSON. -/
  | jsonSyntax
  /-- The `*json.UnmarshalTypeError` of `json.Unmarshal`: a JSON value does not
  fit the Go type named. -/
  | jsonType (goType : String)
  /-- An error returned by a collaborator outside the package (key agreement,
  encryption, signing, relay). -/
  | external (msg : String)
  deriving DecidableEq, Repr

/-- The text of the errors the package creates itself; the errors it passes
on have the text their origin gave them, which is not modelled. -/
def Error.text : Error → Option String
  | .relayMissing => some "relay parametresi eksik"
  | .secretMissing => some "secret parametresi eksik"
  | .noResponse => some "yanıt alınamadı"
  | _ => none

/-- The four named results of `ParseNWCURI`. -/
structure ParsedURI where
  relayURL : Str
  walletPubKey : Str
  secret : Str
  err : Option Error
  deriving DecidableEq, Repr

/-- The wallet key `ParseNWCURI` takes from a parsed URL (utils.go, lines 13-19). -/
def walletPubKeyOf (parsed : url.URL) : Str :=
  let walletPubKey := parsed.Host
  if walletPubKey = [] then
    let walletPubKey := parsed.Path
    match walletPubKey with
    | c :: tail => if c = '/' then tail else walletPubKey
    | [] => walletPubKey
  else walletPubKey

/-- `ParseNWCURI` of utils.go. -/
def ParseNWCURI (uri : Str) : ParsedURI :=
  match url.Parse uri with
  | .error e => { relayURL := [], walletPubKey := [], secret := [], err := some (.url e) }
  | .ok parsed =>
    let walletPubKey := walletPubKeyOf parsed
    let query := parsed.Query
    match url.QueryUnescape (query.Get "relay".toList) with
    | .error _ =>
      { relayURL := [], walletPubKey := walletPubKey, secret := [], err := some .relayMissing }
    | .ok relayURL =>
      if relayURL = [] then
        { relayURL := relayURL, walletPubKey := walletPubKey, secret := [],
          err := some .relayMissing }
      else
        let secret := query.Get "secret".toList
        if secret = [] then
          { relayURL := relayURL, walletPubKey := walletPubKey, secret := secret,
            err := some .secretMissing }
        else
          { relayURL := relayURL, walletPubKey := walletPubKey, secret := secret, err := none }


/-! ## `encoding/json` -/

/-- A JSON value, as the text of a reply spells it.  A number keeps its
literal; an object keeps its members in the order written, repeated keys
included. -/
inductive JSON where
  | null
  | bool (b : Bool)
  | number (literal : Str)
  | string (s : Str)
  | array (items : List JSON)
  | object (members : List (Str × JSON))
  deriving Repr

namespace json

/-- The scanner's `maxNestingDepth`. -/
def maxNestingDepth : Nat := 10000

/-- Go `isSpace` of the scanner. -/
def isSpace (c : Char) : Bool :=
  c = ' ' || c = '\t' || c = '\r' || c = '\n'

def skipSpace : Str → Str
  | [] => []
  | c :: cs => if isSpace c then skipSpace cs else c :: cs

/-- The bytes of `utf8.EncodeRune(r)` for a Unicode scalar value `r`. -/
def encodeRune (r : Nat) : Str :=
  if r < 0x80 then [Char.ofNat r]
  else if r < 0x800 then [Char.ofNat (0xC0 + r / 64), Char.ofNat (0x80 + r % 64)]
  else if r < 0x10000 then
    [Char.ofNat (0xE0 + r / 4096), Char.ofNat (0x80 + r / 64 % 64), Char.ofNat (0x80 + r % 64)]
  else
    [Char.ofNat (0xF0 + r / 262144), Char.ofNat (0x80 + r / 4096 % 64),
      Char.ofNat (0x80 + r / 64 % 64), Char.ofNat (0x80 + r % 64)]

/-- The bytes of U+FFFD, `unicode.ReplacementChar`. -/
def replacementChar : Str := encodeRune 0xFFFD

def between (c : Char) (lo hi : Nat) : Bool :=
  lo ≤ c.toNat && c.toNat ≤ hi

/-- The size `utf8.DecodeRune` reports for the well-formed encoding at the
head of `s`, and `0` where the bytes are not a well-formed encoding. -/
def runeLen : Str → Nat
  | [] => 0
  | b0 :: t =>
    if b0.toNat < 0x80 then 1
    else if between b0 0xC2 0xDF then
      match t with
      | b1 :: _ => if between b1 0x80 0xBF then 2 else 0
      | _ => 0
    else if between b0 0xE0 0xEF then
      match t with
      | b1 :: b2 :: _ =>
        if between b1 (if b0.toNat = 0xE0 then 0xA0 else 0x80) (if b0.toNat = 0xED then 0x9F else 0xBF)
            && between b2 0x80 0xBF then 3 else 0
      | _ => 0
    else if between b0 0xF0 0xF4 then
      match t with
      | b1 :: b2 :: b3 :: _ =>
        if between b1 (if b0.toNat = 0xF0 then 0x90 else 0x80) (if b0.toNat = 0xF4 then 0x8F else 0xBF)
            && between b2 0x80 0xBF && between b3 0x80 0xBF then 4 else 0
      | _ => 0
    else 0

/-- The value of four hexadecimal digits at the head of `s` (Go `getu4`
after its `\u`). -/
def hex4 : Str → Option Nat
  | a :: b :: c :: d :: _ =>
    if url.ishex a && url.ishex b && url.ishex c && url.ishex d then
      some (((url.unhex a * 16 + url.unhex b) * 16 + url.unhex c) * 16 + url.unhex d)
    else none
  | _ => none

/-- The rune of the surrogate pair formed by `r1` and the escape `\uXXXX` at
the head of `s`, when they form one (`utf16.DecodeRune`). -/
def surrogatePair (r1 : Nat) : Str → Option Nat
  | e :: u :: rest =>
    if e = '\\' && u = 'u' then
      match hex4 rest with
      | some r2 =>
        if 0xD800 ≤ r1 ∧ r1 < 0xDC00 ∧ 0xDC00 ≤ r2 ∧ r2 < 0xE000 then
          some ((r1 - 0xD800) * 1024 + (r2 - 0xDC00) + 0x10000)
        else none
      | none => none
    else none
  | _ => none

/-- The byte a one-letter escape stands for. -/
def simpleEscape (e : Char) : Option Char :=
  if e = '"' then some '"'
  else if e = '\\' then some '\\'
  else if e = '/' then some '/'
  else if e = 'b' then some (Char.ofNat 8)
  else if e = 'f' then some (Char.ofNat 12)
  else if e = 'n' then some (Char.ofNat 10)
  else if e = 'r' then some (Char.ofNat 13)
  else if e = 't' then some (Char.ofNat 9)
  else none

def prepend (front : Str) : Option (Str × Str) → Option (Str × Str)
  | some (s, rest) => some (front ++ s, rest)
  | none => none

/-- A string literal after its opening quote: the text it stands for (Go
`unquote`) and the input after the closing quote.  `none` where the scanner
reports a syntax error. -/
def scanString : Nat → Str → Option (Str × Str)
  | 0, _ => none
  | _ + 1, [] => none
  | fuel + 1, c :: cs =>
    if c = '"' then some ([], cs)
    else if c = '\\' then
      match cs with
      | [] => none
      | e :: rest =>
        if e = 'u' then
          match hex4 rest with
          | none => none
          | some rr =>
            if 0xD800 ≤ rr ∧ rr < 0xE000 then
              match surrogatePair rr (rest.drop 4) with
              | some dec => prepend (encodeRune dec) (scanString fuel (rest.drop 10))
              | none => prepend replacementChar (scanString fuel (rest.drop 4))
            else prepend (encodeRune rr) (scanString fuel (rest.drop 4))
        else
          match simpleEscape e with
          | some b => prepend [b] (scanString fuel rest)
          | none => none
    else if c.toNat < 0x20 then none
    else if c.toNat < 0x80 then prepend [c] (scanString fuel cs)
    else if runeLen (c :: cs) = 0 then prepend replacementChar (scanString fuel cs)
    else prepend ((c :: cs).take (runeLen (c :: cs))) (scanString fuel ((c :: cs).drop (runeLen (c :: cs))))

/-- The leading digits of `s` and what follows them. -/
def digits : Str → Str × Str
  | [] => ([], [])
  | c :: cs =>
    if url.isDigit c then
      match digits cs with
      | (ds, rest) => (c :: ds, rest)
    else ([], c :: cs)

/-- A number literal at the head of `s` and the input after it. -/
def scanNumber (s : Str) : Option (Str × Str) :=
  let signed : Str × Str :=
    match s with
    | c :: t => if c = '-' then ([c], t) else ([], s)
    | [] => ([], s)
  let whole : Option (Str × Str) :=
    match signed.2 with
    | c :: t =>
      if c = '0' then some ([c], t)
      else if url.isDigit c then some (digits (c :: t))
      else none
    | [] => none
  match whole with
  | none => none
  | some (int, afterInt) =>
    let frac : Option (Str × Str) :=
      match afterInt with
      | c :: t =>
        if c = '.' then
          match digits t with
          | ([], _) => none
          | (ds, rest) => some (c :: ds, rest)
        else some ([], afterInt)
      | [] => some ([], afterInt)
    match frac with
    | none => none
    | some (fr, afterFrac) =>
      let exp : Option (Str × Str) :=
        match afterFrac with
        | c :: t =>
          if c = 'e' || c = 'E' then
            let sgn : Str × Str :=
              match t with
              | d :: t2 => if d = '+' || d = '-' then ([d], t2) else ([], t)
              | [] => ([], t)
            match digits sgn.2 with
            | ([], _) => none
            | (ds, rest) => some (c :: sgn.1 ++ ds, rest)
          else some ([], afterFrac)
        | [] => some ([], afterFrac)
      match exp with
      | none => none
      | some (ex, rest) => some (signed.1 ++ int ++ fr ++ ex, rest)

mutual
/-- One JSON value at the head of `s` (which has no leading space) and the
input after it, at nesting depth `depth`. -/
def scanValue : Nat → Nat → Str → Option (JSON × Str)
  | 0, _, _ => none
  | _ + 1, _, [] => none
  | fuel + 1, depth, c :: cs =>
    if c = '{' then
      if maxNestingDepth ≤ depth then none
      else
        match skipSpace cs with
        | d :: rest =>
          if d = '}' then some (.object [], rest)
          else
            match scanMembers fuel (depth + 1) (d :: rest) with
            | some (ms, after) => some (.object ms, after)
            | none => none
        | [] => none
    else if c = '[' then
      if maxNestingDepth ≤ depth then none
      else
        match skipSpace cs with
        | d :: rest =>
          if d = ']' then some (.array [], rest)
          else
            match scanItems fuel (depth + 1) (d :: rest) with
            | some (xs, after) => some (.array xs, after)
            | none => none
        | [] => none
    else if c = '"' then
      match scanString (fuel + 1) cs with
      | some (s, after) => some (.string s, after)
      | none => none
    else if startsWith (c :: cs) "true".toList then some (.bool true, cs.drop 3)
    else if startsWith (c :: cs) "false".toList then some (.bool false, cs.drop 4)
    else if startsWith (c :: cs) "null".toList then some (.null, cs.drop 3)
    else
      match scanNumber (c :: cs) with
      | some (lit, after) => some (.number lit, after)
      | none => none
/-- The items of an array from its first item to the closing bracket. -/
def scanItems : Nat → Nat → Str → Option (List JSON × Str)
  | 0, _, _ => none
  | fuel + 1, depth, s =>
    match scanValue fuel depth s with
    | none => none
    | some (v, after) =>
      match skipSpace after with
      | d :: rest =>
        if d = ']' then some ([v], rest)
        else if d = ',' then
          match scanItems fuel depth (skipSpace rest) with
          | some (vs, tail) => some (v :: vs, tail)
          | none => none
        else none
      | [] => none
/-- The members of an object from its first key to the closing brace. -/
def scanMembers : Nat → Nat → Str → Option (List (Str × JSON) × Str)
  | 0, _, _ => none
  | _ + 1, _, [] => none
  | fuel + 1, depth, q :: s =>
    if q = '"' then
      match scanString (fuel + 1) s with
      | none => none
      | some (key, afterKey) =>
        match skipSpace afterKey with
        | colon :: afterColon =>
          if colon = ':' then
            match scanValue fuel depth (skipSpace afterColon) with
            | none => none
            | some (v, after) =>
              match skipSpace after with
              | d :: rest =>
                if d = '}' then some ([(key, v)], rest)
                else if d = ',' then
                  match scanMembers fuel depth (skipSpace rest) with
                  | some (ms, tail) => some ((key, v) :: ms, tail)
                  | none => none
                else none
              | [] => none
          else none
        | [] => none
    else none
end

/-- The JSON value a text spells (Go `checkValid` and the scan of the
decoder): one value with optional space around it; `none` for a text that is
not JSON.  Every step of the scan that spends fuel without reading a byte is
followed by one that reads a byte, so twice the length of the text is fuel
enough. -/
def parseText (raw : Str) : Option JSON :=
  match scanValue (2 * raw.length + 2) 0 (skipSpace raw) with
  | some (v, rest) => if skipSpace rest = [] then some v else none
  | none => none


/-- Go `foldName` up to the choice of representative: two keys fold to the
same text exactly when `bytes.EqualFold` holds of them, for keys compared
with ASCII names.  ASCII letters go to lower case; U+017F (long s) and
U+212A (Kelvin sign), the two runes outside ASCII that fold to an ASCII
letter, go to `s` and `k`. -/
def foldName : Str → Str
  | [] => []
  | c :: cs =>
    if between c 0x41 0x5A then Char.ofNat (c.toNat + 32) :: foldName cs
    else if c.toNat = 0xC5 then
      match cs with
      | d :: rest => if d.toNat = 0xBF then 's' :: foldName rest else c :: d :: foldName rest
      | [] => [c]
    else if c.toNat = 0xE2 then
      match cs with
      | d :: e :: rest =>
        if d.toNat = 0x84 && e.toNat = 0xAA then 'k' :: foldName rest
        else c :: d :: e :: foldName rest
      | rest => c :: rest
    else c :: foldName cs

/-- The number a run of decimal digits writes. -/
def natOfDigits (ds : Str) : Nat :=
  ds.foldl (fun acc d => acc * 10 + (d.toNat - '0'.toNat)) 0

/-- Go `strconv.ParseInt(literal, 10, 64)` on a JSON number literal: the
integer it writes, when it writes one that fits `int64`. -/
def parseInt64 (literal : Str) : Option Int :=
  let body : Str × Bool :=
    match literal with
    | c :: t => if c = '-' then (t, true) else (literal, false)
    | [] => (literal, false)
  if body.1 = [] || !body.1.all url.isDigit then none
  else
    let n : Nat := natOfDigits body.1
    let v : Int := if body.2 then -(n : Int) else (n : Int)
    if -(2 : Int) ^ 63 ≤ v ∧ v < (2 : Int) ^ 63 then some v else none

/-- Decoding into a Go `string`: `null` leaves the value as it is. -/
def decodeString (cur : Str) : JSON → Except Error Str
  | .null => .ok cur
  | .string s => .ok s
  | _ => .error (.jsonType "string")

/-- Decoding into a Go `int64`. -/
def decodeInt64 (cur : Int) : JSON → Except Error Int
  | .null => .ok cur
  | .number literal =>
    match parseInt64 literal with
    | some n => .ok n
    | none => .error (.jsonType "int64")
  | _ => .error (.jsonType "int64")

/-- The items of a JSON array decoded one by one, item `i` into element `i`
of the slice that was there (a fresh zero element past its end). -/
def decodeItems {α : Type} (dec : α → JSON → Except Error α) (zero : α) :
    List α → List JSON → Except Error (List α)
  | _, [] => .ok []
  | cur, j :: js =>
    match dec (cur.headD zero) j with
    | .error e => .error e
    | .ok x =>
      match decodeItems dec zero cur.tail js with
      | .error e => .error e
      | .ok xs => .ok (x :: xs)

/-- Decoding into a Go slice (`none` is the nil slice): `null` gives nil, an
array gives its decoded items.  Elements of an earlier value of the slice are
decoded into up to that value's length; the spare capacity Go keeps past the
length, which a key written three times can bring back, counts as zeroed. -/
def decodeSlice {α : Type} (dec : α → JSON → Except Error α) (zero : α)
    (cur : Option (List α)) : JSON → Except Error (Option (List α))
  | .null => .ok none
  | .array items =>
    match decodeItems dec zero (cur.getD []) items with
    | .error e => .error e
    | .ok xs => .ok (some xs)
  | _ => .error (.jsonType "slice")

/-- Whether `strconv.ParseFloat(literal, 64)` succeeds on a JSON number
literal: its magnitude, `m * 10 ^ e` for the digits `m` and the decimal
exponent `e`, is below 2^1024 - 2^970, from where on the nearest `float64` is
infinite. -/
def numberFitsFloat64 (literal : Str) : Bool :=
  let body : Str :=
    match literal with
    | c :: t => if c = '-' then t else literal
    | [] => literal
  match digits body with
  | (int, afterInt) =>
    let fr : Str × Str :=
      match afterInt with
      | c :: t => if c = '.' then digits t else ([], afterInt)
      | [] => ([], afterInt)
    let ex : Int :=
      match fr.2 with
      | c :: t =>
        if c = 'e' || c = 'E' then
          match t with
          | d :: t2 =>
            if d = '-' then -(natOfDigits t2 : Int)
            else if d = '+' then (natOfDigits t2 : Int)
            else (natOfDigits t : Int)
          | [] => 0
        else 0
      | [] => 0
    let m : Nat := natOfDigits (int ++ fr.1)
    let e : Int := ex - (fr.1.length : Int)
    let limit : Nat := 2 ^ 1024 - 2 ^ 970
    if 0 ≤ e then decide (m * 10 ^ e.toNat < limit) else decide (m < limit * 10 ^ (-e).toNat)

mutual
/-- Whether every number literal in a JSON value converts to a `float64`
(Go `convertNumber`, used when the target is an `interface{}`):
`strconv.ParseFloat` reports a range error from 2^1024 - 2^970 on. -/
def fitsInterface : JSON → Bool
  | .number literal => numberFitsFloat64 literal
  | .array items => itemsFitInterface items
  | .object members => membersFitInterface members
  | _ => true
def itemsFitInterface : List JSON → Bool
  | [] => true
  | x :: xs => fitsInterface x && itemsFitInterface xs
def membersFitInterface : List (Str × JSON) → Bool
  | [] => true
  | (_, x) :: xs => fitsInterface x && membersFitInterface xs
end

/-- Decoding into a Go `map[string]interface{}` (`none` is the nil map):
`null` gives nil; an object adds its members, each converted to a Go value
(kept here as the JSON value it came from), to the map that was there; the
pair written last for a key is the one the map holds. -/
def decodeMap (cur : Option (List (Str × JSON))) : JSON → Except Error (Option (List (Str × JSON)))
  | .null => .ok none
  | .object members =>
    if membersFitInterface members then .ok (some (cur.getD [] ++ members))
    else .error (.jsonType "float64")
  | _ => .error (.jsonType "map[string]interface {}")

/-- The members of a JSON object decoded one by one into a struct: `set`
decodes a value into the field a folded key names and skips a key that names
no field. -/
def decodeMembers {α : Type} (set : α → Str → JSON → Except Error α) :
    α → List (Str × JSON) → Except Error α
  | cur, [] => .ok cur
  | cur, (key, v) :: ms =>
    match set cur (foldName key) v with
    | .error e => .error e
    | .ok next => decodeMembers set next ms

/-- Decoding into a Go struct: `null` leaves it as it is, an object sets the
fields its members name (a field named twice is decoded into twice), any
other value is a type error.  Go goes on decoding after a type error and
reports the first one; the callers here drop the value then. -/
def decodeStruct {α : Type} (set : α → Str → JSON → Except Error α) (cur : α) :
    JSON → Except Error α
  | .null => .ok cur
  | .object members => decodeMembers set cur members
  | _ => .error (.jsonType "struct")

end json

/-! ## `client.go`: the records -/

structure Client where
  RelayURL : Str
  WalletPubKey : Str
  ClientSecret : Str
  ClientPubKey : Str
  deriving DecidableEq, Repr

/-- `InvoiceDetails` of client.go; `TransactionDetails` is the same type.
(`Type_` is the field `Type`.) -/
structure InvoiceDetails where
  Type_ : Str := []
  Invoice : Str := []
  Description : Str := []
  DescriptionHash : Str := []
  Preimage : Str := []
  PaymentHash : Str := []
  Amount : Int := 0
  FeesPaid : Int := 0
  CreatedAt : Int := 0
  ExpiresAt : Int := 0
  SettledAt : Int := 0
  Metadata : Option (List (Str × JSON)) := none
  deriving Repr

abbrev TransactionDetails := InvoiceDetails

/-- The field of `InvoiceDetails` a folded key names, by the `json` tags. -/
def InvoiceDetails.set (d : InvoiceDetails) (name : Str) (v : JSON) :
    Except Error InvoiceDetails :=
  if name = "type".toList then (json.decodeString d.Type_ v).map fun x => { d with Type_ := x }
  else if name = "invoice".toList then
    (json.decodeString d.Invoice v).map fun x => { d with Invoice := x }
  else if name = "description".toList then
    (json.decodeString d.Description v).map fun x => { d with Description := x }
  else if name = "description_hash".toList then
    (json.decodeString d.DescriptionHash v).map fun x => { d with DescriptionHash := x }
  else if name = "preimage".toList then
    (json.decodeString d.Preimage v).map fun x => { d with Preimage := x }
  else if name = "payment_hash".toList then
    (json.decodeString d.PaymentHash v).map fun x => { d with PaymentHash := x }
  else if name = "amount".toList then
    (json.decodeInt64 d.Amount v).map fun x => { d with Amount := x }
  else if name = "fees_paid".toList then
    (json.decodeInt64 d.FeesPaid v).map fun x => { d with FeesPaid := x }
  else if name = "created_at".toList then
    (json.decodeInt64 d.CreatedAt v).map fun x => { d with CreatedAt := x }
  else if name = "expires_at".toList then
    (json.decodeInt64 d.ExpiresAt v).map fun x => { d with ExpiresAt := x }
  else if name = "settled_at".toList then
    (json.decodeInt64 d.SettledAt v).map fun x => { d with SettledAt := x }
  else if name = "metadata".toList then
    (json.decodeMap d.Metadata v).map fun x => { d with Metadata := x }
  else .ok d

def InvoiceDetails.decode (d : InvoiceDetails) (v : JSON) : Except Error InvoiceDetails :=
  json.decodeStruct InvoiceDetails.set d v

/-- The result of `GetBalance`: `struct { Balance int64 }`. -/
structure BalanceResult where
  Balance : Int := 0
  deriving DecidableEq, Repr

def BalanceResult.set (b : BalanceResult) (name : Str) (v : JSON) : Except Error BalanceResult :=
  if name = "balance".toList then (json.decodeInt64 b.Balance v).map fun x => { b with Balance := x }
  else .ok b

def BalanceResult.decode (b : BalanceResult) (v : JSON) : Except Error BalanceResult :=
  json.decodeStruct BalanceResult.set b v

/-- The result of `PayInvoice` and `PayKeysend`:
`struct { Preimage string; FeesPaid int64 }`. -/
structure PaymentResult where
  Preimage : Str := []
  FeesPaid : Int := 0
  deriving DecidableEq, Repr

def PaymentResult.set (p : PaymentResult) (name : Str) (v : JSON) : Except Error PaymentResult :=
  if name = "preimage".toList then
    (json.decodeString p.Preimage v).map fun x => { p with Preimage := x }
  else if name = "fees_paid".toList then
    (json.decodeInt64 p.FeesPaid v).map fun x => { p with FeesPaid := x }
  else .ok p

def PaymentResult.decode (p : PaymentResult) (v : JSON) : Except Error PaymentResult :=
  json.decodeStruct PaymentResult.set p v

/-- The `result` of `ListTransactions`:
`struct { Transactions []TransactionDetails }`. -/
structure TransactionsResult where
  Transactions : Option (List TransactionDetails) := none
  deriving Repr

def TransactionsResult.set (t : TransactionsResult) (name : Str) (v : JSON) : Except Error TransactionsResult :=
  if name = "transactions".toList then
    (json.decodeSlice InvoiceDetails.decode {} t.Transactions v).map
      fun x => { t with Transactions := x }
  else .ok t

def TransactionsResult.decode (t : TransactionsResult) (v : JSON) : Except Error TransactionsResult :=
  json.decodeStruct TransactionsResult.set t v

/-- The result of `GetInfo`. -/
structure InfoResult where
  Alias : Str := []
  Pubkey : Str := []
  Network : Str := []
  Methods : Option (List Str) := none
  Color : Str := []
  BlockHeight : Int := 0
  BlockHash : Str := []
  Notifications : Option (List Str) := none
  deriving DecidableEq, Repr

def InfoResult.set (i : InfoResult) (name : Str) (v : JSON) : Except Error InfoResult :=
  if name = "alias".toList then (json.decodeString i.Alias v).map fun x => { i with Alias := x }
  else if name = "pubkey".toList then
    (json.decodeString i.Pubkey v).map fun x => { i with Pubkey := x }
  else if name = "network".toList then
    (json.decodeString i.Network v).map fun x => { i with Network := x }
  else if name = "methods".toList then
    (json.decodeSlice json.decodeString [] i.Methods v).map fun x => { i with Methods := x }
  else if name = "color".toList then
    (json.decodeString i.Color v).map fun x => { i with Color := x }
  else if name = "block_height".toList then
    (json.decodeInt64 i.BlockHeight v).map fun x => { i with BlockHeight := x }
  else if name = "block_hash".toList then
    (json.decodeString i.BlockHash v).map fun x => { i with BlockHash := x }
  else if name = "notifications".toList then
    (json.decodeSlice json.decodeString [] i.Notifications v).map
      fun x => { i with Notifications := x }
  else .ok i

def InfoResult.decode (i : InfoResult) (v : JSON) : Except Error InfoResult :=
  json.decodeStruct InfoResult.set i v

/-- The field of `struct { Result T }` (tag `result`) a folded key names. -/
def setResult {α : Type} (decode : α → JSON → Except Error α) (cur : α) (name : Str) (v : JSON) :
    Except Error α :=
  if name = "result".toList then decode cur v else .ok cur

/-- The call `json.Unmarshal([]byte(raw), &resp)` for
`var resp struct { Result T }`, giving `resp.Result`: `decode` decodes into a
`T` and `zero` is the zero value `resp.Result` starts from. -/
def Unmarshal {α : Type} (decode : α → JSON → Except Error α) (zero : α) (raw : Str) :
    Except Error α :=
  match json.parseText raw with
  | none => .error .jsonSyntax
  | some doc => json.decodeStruct (setResult decode) zero doc

/-! ## `client.go`: the session -/

/-- A value of the `params` mapping: the operations pass Go ints and strings. -/
inductive Param where
  | int (n : Int)
  | str (s : Str)
  deriving DecidableEq, Repr

/-- A `map[string]interface{}` of parameters, its keys in ascending order (the
order `json.Marshal` writes them in). -/
abbrev Params := List (Str × Param)

/-- Go-nostr's `Event`. -/
structure Event where
  ID : Str := []
  PubKey : Str := []
  CreatedAt : Int := 0
  Kind : Int := 0
  Tags : List (List Str) := []
  Content : Str := []
  Sig : Str := []
  deriving DecidableEq, Repr

/-- Go-nostr's `Filter`, with the fields `sendRequest` sets. -/
structure Filter where
  Kinds : List Int := []
  Authors : List Str := []
  Tags : List (Str × List Str) := []
  Limit : Nat := 0
  deriving DecidableEq, Repr

/-- A connected relay, as far as `sendRequest` uses one: what `Publish`
answers, and for `Subscribe` either its error or the events the channel
`sub.Events` delivers until it is closed (at the latest when the 30-second
context ends the subscription). -/
structure Relay where
  Publish : Event → Option Error
  Subscribe : List Filter → Except Error (List Event)

/-- The collaborators outside the package that `sendRequest` calls. -/
structure Env where
  /-- `json.Marshal` of the payload `{"method": method, "params": params}`. -/
  Marshal : Str → Params → Except Error Str
  /-- `nip04.ComputeSharedSecret(pub, sk)`. -/
  ComputeSharedSecret : Str → Str → Except Error Str
  /-- `nip04.Encrypt(message, key)`. -/
  Encrypt : Str → Str → Except Error Str
  /-- `nip04.Decrypt(content, key)`. -/
  Decrypt : Str → Str → Except Error Str
  /-- `nostr.Now()`. -/
  Now : Int
  /-- `ev.Sign(secretKey)`: the event with its id and signature set. -/
  Sign : Event → Str → Except Error Event
  /-- `nostr.RelayConnect(ctx, url)`. -/
  RelayConnect : Str → Except Error Relay
  /-- `nostr.GetPublicKey(sk)`. -/
  GetPublicKey : Str → Except Error Str

/-- `NewClient` of client.go (`none` is the nil pointer). -/
def NewClient (env : Env) (uri : Str) : Option Client × Option Error :=
  let parsed := ParseNWCURI uri
  match parsed.err with
  | some err => (none, some err)
  | none =>
    match env.GetPublicKey parsed.secret with
    | .error err => (none, some err)
    | .ok clientPubKey =>
      (some { RelayURL := parsed.relayURL, WalletPubKey := parsed.walletPubKey,
              ClientSecret := parsed.secret, ClientPubKey := clientPubKey }, none)

/-- What `sendRequest` does to its collaborators, in the order it does it. -/
inductive Call where
  | encrypt (message key : Str)
  | connect (relayURL : Str)
  | publish (ev : Event)
  | subscribe (filters : List Filter)
  | decrypt (content key : Str)
  /-- The deferred `cancel()` of the 30-second context. -/
  | cancel
  /-- The deferred `relay.Close()`. -/
  | close
  deriving DecidableEq, Repr

/-- The results of `sendRequest`, with the calls it made. -/
structure Outcome where
  value : Str
  err : Option Error
  calls : List Call
  deriving DecidableEq, Repr

/-- The filters of client.go, lines 95-100. -/
def responseFilters (c : Client) (ev : Event) : List Filter :=
  [{ Kinds := [23195], Authors := [c.WalletPubKey], Tags := [("e".toList, [ev.ID])], Limit := 1 }]

/-- The event of client.go, lines 73-79, before it is signed. -/
def requestEvent (env : Env) (c : Client) (encryptedContent : Str) : Event :=
  { PubKey := c.ClientPubKey, CreatedAt := env.Now, Kind := 23194,
    Tags := [["p".toList, c.WalletPubKey]], Content := encryptedContent }

/-- Lines 102-117 of `sendRequest`: subscribe, take the first event the
channel delivers and decrypt it; the deferred `cancel()` runs on the way out. -/
def awaitResponse (env : Env) (relay : Relay) (c : Client) (ev : Event) (sharedSecret : Str) :
    Outcome :=
  let filters := responseFilters c ev
  match relay.Subscribe filters with
  | .error e => { value := [], err := some e, calls := [.subscribe filters, .cancel] }
  | .ok events =>
    match events with
    | e :: _ =>
      match env.Decrypt e.Content sharedSecret with
      | .error err =>
        { value := [], err := some err,
          calls := [.subscribe filters, .decrypt e.Content sharedSecret, .cancel] }
      | .ok decrypted =>
        { value := decrypted, err := none,
          calls := [.subscribe filters, .decrypt e.Content sharedSecret, .cancel] }
    | [] => { value := [], err := some .noResponse, calls := [.subscribe filters, .cancel] }

/-- Lines 91-117 of `sendRequest`, run with the relay connected. -/
def exchange (env : Env) (relay : Relay) (c : Client) (ev : Event) (sharedSecret : Str) :
    Outcome :=
  match relay.Publish ev with
  | some e => { value := [], err := some e, calls := [.publish ev] }
  | none =>
    let r := awaitResponse env relay c ev sharedSecret
    { r with calls := .publish ev :: r.calls }

/-- `sendRequest` of client.go. -/
def sendRequest (env : Env) (c : Client) (method : Str) (params : Params) : Outcome :=
  match env.Marshal method params with
  | .error e => { value := [], err := some e, calls := [] }
  | .ok payloadBytes =>
    match env.ComputeSharedSecret c.WalletPubKey c.ClientSecret with
    | .error e => { value := [], err := some e, calls := [] }
    | .ok sharedSecret =>
      match env.Encrypt payloadBytes sharedSecret with
      | .error e => { value := [], err := some e, calls := [.encrypt payloadBytes sharedSecret] }
      | .ok encryptedContent =>
        match env.Sign (requestEvent env c encryptedContent) c.ClientSecret with
        | .error e =>
          { value := [], err := some e, calls := [.encrypt payloadBytes sharedSecret] }
        | .ok ev =>
          match env.RelayConnect c.RelayURL with
          | .error e =>
            { value := [], err := some e,
              calls := [.encrypt payloadBytes sharedSecret, .connect c.RelayURL] }
          | .ok relay =>
            -- `defer relay.Close()`: runs last on every way out from here on
            let r := exchange env relay c ev sharedSecret
            { r with
              calls := [.encrypt payloadBytes sharedSecret, .connect c.RelayURL] ++ r.calls
                ++ [.close] }

/-- The results of an operation: the value, the error, and the calls made. -/
structure Reply (α : Type) where
  result : α
  err : Option Error
  calls : List Call

/-- The shape the seven operations share: call `sendRequest`, hand its error
on, unmarshal the text into `struct { Result T }`, hand that error on, and
give `project` of `resp.Result`; `failed` is the value returned with an error. -/
def call {α β : Type} (env : Env) (c : Client) (method : Str) (params : Params)
    (decode : α → JSON → Except Error α) (zero : α) (failed : β) (project : α → β) : Reply β :=
  let r := sendRequest env c method params
  match r.err with
  | some e => { result := failed, err := some e, calls := r.calls }
  | none =>
    match Unmarshal decode zero r.value with
    | .error e => { result := failed, err := some e, calls := r.calls }
    | .ok result => { result := project result, err := none, calls := r.calls }

/-- `GetBalance` of client.go (`none` is the nil pointer). -/
def GetBalance (env : Env) (c : Client) : Reply (Option BalanceResult) :=
  call env c "get_balance".toList [] BalanceResult.decode {} none some

/-- `MakeInvoice` of client.go. -/
def MakeInvoice (env : Env) (c : Client) (amount : Int) (memo : Str) : Reply Str :=
  call env c "make_invoice".toList
    [("amount".toList, .int amount), ("description".toList, .str memo)]
    InvoiceDetails.decode {} [] (fun r => r.Invoice)

/-- `PayInvoice` of client.go. -/
def PayInvoice (env : Env) (c : Client) (invoice : Str) : Reply (Option PaymentResult) :=
  call env c "pay_invoice".toList [("invoice".toList, .str invoice)]
    PaymentResult.decode {} none some

/-- `PayKeysend` of client.go. -/
def PayKeysend (env : Env) (c : Client) (pubkey : Str) (amount : Int) :
    Reply (Option PaymentResult) :=
  call env c "pay_keysend".toList [("amount".toList, .int amount), ("pubkey".toList, .str pubkey)]
    PaymentResult.decode {} none some

/-- `LookupInvoice` of client.go. -/
def LookupInvoice (env : Env) (c : Client) (param : Str) : Reply (Option InvoiceDetails) :=
  call env c "lookup_invoice".toList [("invoice".toList, .str param)]
    InvoiceDetails.decode {} none some

/-- `ListTransactions` of client.go (`none` is the nil slice). -/
def ListTransactions (env : Env) (c : Client) : Reply (Option (List TransactionDetails)) :=
  call env c "list_transactions".toList [] TransactionsResult.decode {} none
    (fun r => r.Transactions)

/-- `GetInfo` of client.go. -/
def GetInfo (env : Env) (c : Client) : Reply (Option InfoResult) :=
  call env c "get_info".toList [] InfoResult.decode {} none some

/-! ## Stand-ins for the collaborators

A relay and an environment with fixed behaviour, to run the session on. -/

/-- Go `Values.Has`: the query holds a pair for `key`. -/
def url.Values.Has (v : url.Values) (key : Str) : Bool :=
  v.any fun kv => kv.1 = key

/-- A relay that accepts what is published and delivers `delivered` to
every subscription. -/
def fakeRelay (delivered : List Event) : Relay :=
  { Publish := fun _ => none
    Subscribe := fun _ => .ok delivered }

/-- A stand-in for `json.Marshal` on texts that need no escaping. -/
def fakeMarshal (method : Str) (params : Params) : Str :=
  let member (kv : Str × Param) : Str :=
    match kv.2 with
    | .int n => "\"".toList ++ kv.1 ++ "\":".toList ++ (toString n).toList
    | .str s => "\"".toList ++ kv.1 ++ "\":\"".toList ++ s ++ "\"".toList
  "\x7b\"method\":\"".toList ++ method ++ "\",\"params\":\x7b".toList
    ++ ",".toList.intercalate (params.map member) ++ "\x7d\x7d".toList

/-- An environment in which the public key of `sk` is `p` followed by `sk`,
the shared secret of `pub` and `sk` is `pub` followed by `sk`, encrypting puts
the key and a `|` in front of the message, decrypting takes them off again and
fails on any other content, signing sets the id `id1`, and every relay is
`fakeRelay delivered`. -/
def fakeEnv (delivered : List Event) : Env :=
  { Marshal := fun method params => .ok (fakeMarshal method params)
    ComputeSharedSecret := fun pub sk => .ok (pub ++ sk)
    Encrypt := fun message key => .ok (key ++ '|' :: message)
    Decrypt := fun content key =>
      if startsWith content (key ++ ['|']) then .ok (content.drop (key.length + 1))
      else .error (.external "nip04: invalid padding")
    Now := 1700000000
    Sign := fun ev _ => .ok { ev with ID := "id1".toList, Sig := "sig1".toList }
    RelayConnect := fun _ => .ok (fakeRelay delivered)
    GetPublicKey := fun sk => .ok ('p' :: sk) }

/-- A client of the wallet `w1` with the secret `s1`. -/
def fakeClient : Client :=
  { RelayURL := "wss://relay.example".toList, WalletPubKey := "w1".toList,
    ClientSecret := "s1".toList, ClientPubKey := "c1".toList }

/-- A response event of the wallet `w1` to the request `id1`, carrying `text`
encrypted under the shared secret of `fakeClient`. -/
def walletEvent (text : Str) : Event :=
  { ID := "r1".toList, PubKey := "w1".toList, CreatedAt := 1700000001, Kind := 23195,
    Tags := [["e".toList, "id1".toList], ["p".toList, "c1".toList]],
    Content := "w1s1|".toList ++ text, Sig := "sigw".toList }

/-! ## Notions the statements use -/

/-- The two tests of a response the specification names: its author is the
wallet, and one of its tags is `["e", requestID, ...]`. -/
def verified (c : Client) (requestID : Str) (e : Event) : Bool :=
  e.PubKey = c.WalletPubKey && e.Tags.any fun t => t.take 2 = ["e".toList, requestID]

/-- The first delivered event that passes both tests. -/
def firstVerified (c : Client) (requestID : Str) (events : List Event) : Option Event :=
  events.find? (verified c requestID)

/-- The first segment of a path, leading separators stripped. -/
def firstSegment (path : Str) : Str :=
  (path.dropWhile (· = '/')).takeWhile (· ≠ '/')

/-- The session for `method` and `params` gets as far as its subscription:
the payload is marshalled, `k` is the shared secret, the request is
encrypted under `k` and signed as `ev`, the relay `relay` is connected and
takes `ev`, and the subscription delivers `events`. -/
def Reaches (env : Env) (c : Client) (method : Str) (params : Params)
    (k : Str) (ev : Event) (events : List Event) : Prop :=
  ∃ payload content relay,
    env.Marshal method params = .ok payload ∧
    env.ComputeSharedSecret c.WalletPubKey c.ClientSecret = .ok k ∧
    env.Encrypt payload k = .ok content ∧
    env.Sign (requestEvent env c content) c.ClientSecret = .ok ev ∧
    env.RelayConnect c.RelayURL = .ok relay ∧
    relay.Publish ev = none ∧
    relay.Subscribe (responseFilters c ev) = .ok events

/-- A JSON value a Go `string` field takes. -/
def json.fitsString : JSON → Bool
  | .null => true
  | .string _ => true
  | _ => false

/-- A JSON value a Go `int64` field takes. -/
def json.fitsInt64 : JSON → Bool
  | .null => true
  | .number literal => (json.parseInt64 literal).isSome
  | _ => false

/-- A JSON value a Go `map[string]interface{}` field takes. -/
def json.fitsMap : JSON → Bool
  | .null => true
  | .object members => json.membersFitInterface members
  | _ => false

/-- A member of a `result` object that `InvoiceDetails` takes: it names no
field, or its value has the JSON type of the field it names. -/
def InvoiceDetails.fits (kv : Str × JSON) : Bool :=
  let name := json.foldName kv.1
  if name ∈ ["type".toList, "invoice".toList, "description".toList, "description_hash".toList,
      "preimage".toList, "payment_hash".toList] then json.fitsString kv.2
  else if name ∈ ["amount".toList, "fees_paid".toList, "created_at".toList, "expires_at".toList,
      "settled_at".toList] then json.fitsInt64 kv.2
  else if name = "metadata".toList then json.fitsMap kv.2
  else true

/-- The path with one leading separator taken off, when it has one. -/
def withoutLeadingSlash : Str → Str
  | [] => []
  | c :: tail => if c = '/' then tail else c :: tail

/-- The reply `reply` of an operation is that of one request for `method`
with `params`, decoded with `decode`: the operation makes the calls of that
request, the first of which encrypts the marshalled payload; it hands on the
error of the request, or that of unmarshalling the text into
`struct { Result T }`, with the value `failed`; otherwise it returns
`project` of the decoded `Result` with a nil error. -/
def Carries {α β : Type} (reply : Reply β) (env : Env) (c : Client) (method : Str)
    (params : Params) (decode : α → JSON → Except Error α) (zero : α) (failed : β)
    (project : α → β) : Prop :=
  reply.calls = (sendRequest env c method params).calls ∧
  (∀ payload k, env.Marshal method params = .ok payload →
    env.ComputeSharedSecret c.WalletPubKey c.ClientSecret = .ok k →
    reply.calls.head? = some (.encrypt payload k)) ∧
  (∀ e, (sendRequest env c method params).err = some e →
    reply.err = some e ∧ reply.result = failed) ∧
  (∀ e, (sendRequest env c method params).err = none →
    Unmarshal decode zero (sendRequest env c method params).value = .error e →
    reply.err = some e ∧ reply.result = failed) ∧
  (∀ r, (sendRequest env c method params).err = none →
    Unmarshal decode zero (sendRequest env c method params).value = .ok r →
    reply.err = none ∧ reply.result = project r)

/-- A response of the wallet `w1` to another request, `id0`, of the same
client, carrying `text` encrypted under their shared secret. -/
def otherEvent (text : Str) : Event :=
  { ID := "r0".toList, PubKey := "w1".toList, CreatedAt := 1699999999, Kind := 23195,
    Tags := [["e".toList, "id0".toList], ["p".toList, "c1".toList]],
    Content := "w1s1|".toList ++ text, Sig := "sigv".toList }

/-- An event of another author, `m1`, that refers to the request `id1`. -/
def foreignEvent (text : Str) : Event :=
  { ID := "r2".toList, PubKey := "m1".toList, CreatedAt := 1700000001, Kind := 23195,
    Tags := [["e".toList, "id1".toList]],
    Content := "w1s1|".toList ++ text, Sig := "sigm".toList }

/-- The reply of the specification's example. -/
def invoiceReply : Str :=
  "\x7b\"result\":\x7b\"invoice\":\"lnbc1...\"\x7d\x7d".toList

/-- A reply that carries an `error` field and no `result`. -/
def errorReply : Str :=
  ("\x7b\"result_type\":\"get_balance\"," ++
    "\"error\":\x7b\"code\":\"UNAUTHORIZED\",\"message\":\"no\"\x7d\x7d").toList

/-- Replies to `get_balance` with the balances 21 and 7. -/
def balanceReply21 : Str := "\x7b\"result\":\x7b\"balance\":21\x7d\x7d".toList

def balanceReply7 : Str := "\x7b\"result\":\x7b\"balance\":7\x7d\x7d".toList

/-- An event of the wallet `w1` for the request `id1` whose content is
encrypted under another key. -/
def wrongKeyEvent (text : Str) : Event :=
  { ID := "r3".toList, PubKey := "w1".toList, CreatedAt := 1700000001, Kind := 23195,
    Tags := [["e".toList, "id1".toList], ["p".toList, "c1".toList]],
    Content := "w9s9|".toList ++ text, Sig := "sigw".toList }

/-- The signed request `fakeEnv` makes of `method` and `params` for
`fakeClient`. -/
def fakeRequest (method : Str) (params : Params) : Event :=
  { PubKey := "c1".toList, CreatedAt := 1700000000, Kind := 23194,
    Tags := [["p".toList, "w1".toList]],
    Content := "w1s1|".toList ++ fakeMarshal method params,
    ID := "id1".toList, Sig := "sig1".toList }

/-- The request for `method` with `params` is answered: `sendRequest` returns
the text `raw` with a nil error. -/
def Answers (env : Env) (c : Client) (method : Str) (params : Params) (raw : Str) : Prop :=
  (sendRequest env c method params).err = none ∧
    (sendRequest env c method params).value = raw

/-- The text `raw` is a reply document, a JSON object, whose `result` field
is `v`: it has the member `"result": v` and no other member of that name
(`result_type`, `error` and other members may stand before and after it). -/
def ResultOf (raw : Str) (v : JSON) : Prop :=
  ∃ before after,
    json.parseText raw = some (.object (before ++ ("result".toList, v) :: after)) ∧
    ∀ kv ∈ before ++ after, json.foldName kv.1 ≠ "result".toList

/-- A full `get_info` reply. -/
def infoReply : Str :=
  ("\x7b\"result_type\":\"get_info\",\"result\":\x7b\"alias\":\"w\",\"pubkey\":\"w1\"," ++
    "\"network\":\"mainnet\",\"methods\":[\"get_info\",\"pay_invoice\"],\"color\":\"#fff\"," ++
    "\"block_height\":840000,\"block_hash\":\"00ab\",\"notifications\":[]\x7d\x7d").toList

/-- A `pay_invoice` reply. -/
def paymentReply : Str :=
  "\x7b\"result\":\x7b\"preimage\":\"0123\",\"fees_paid\":3\x7d\x7d".toList

/-- A `list_transactions` reply with two transactions. -/
def transactionsReply : Str :=
  ("\x7b\"result\":\x7b\"transactions\":[\x7b\"type\":\"incoming\",\"amount\":5\x7d," ++
    "\x7b\"type\":\"outgoing\",\"invoice\":\"lnbc2\",\"fees_paid\":1\x7d]\x7d\x7d").toList

/-! ## Decoding lemmas -/

theorem url.unescapeBuild_ne_nil (mode : url.Encoding) (s : Str) (h : s ≠ []) :
    url.unescapeBuild mode s ≠ [] := by
  cases s with
  | nil => exact absurd rfl h
  | cons c rest =>
    unfold url.unescapeBuild
    split_ifs
    all_goals first
      | exact List.cons_ne_nil _ _
      | (rcases rest with _ | ⟨a, _ | ⟨b, t2⟩⟩ <;> simp)

/-- A query component that decodes to the empty text is empty. -/
theorem url.QueryUnescape_eq_nil {s : Str} (h : url.QueryUnescape s = .ok []) : s = [] := by
  by_contra hne
  unfold url.QueryUnescape url.unescape at h
  cases hc : url.unescapeCheck .encodeQueryComponent s with
  | error e => simp [hc] at h
  | ok u =>
    simp only [hc] at h
    injection h with h
    exact url.unescapeBuild_ne_nil _ s hne h

/-- What `ParseNWCURI` returns for a string `url.Parse` accepts. -/
theorem ParseNWCURI_of_parse {uri : Str} {parsed : url.URL} (h : url.Parse uri = .ok parsed) :
    ParseNWCURI uri =
      match url.QueryUnescape (parsed.Query.Get "relay".toList) with
      | .error _ =>
        { relayURL := [], walletPubKey := walletPubKeyOf parsed, secret := [],
          err := some .relayMissing }
      | .ok relayURL =>
        if relayURL = [] then
          { relayURL := relayURL, walletPubKey := walletPubKeyOf parsed, secret := [],
            err := some .relayMissing }
        else if parsed.Query.Get "secret".toList = [] then
          { relayURL := relayURL, walletPubKey := walletPubKeyOf parsed,
            secret := parsed.Query.Get "secret".toList, err := some .secretMissing }
        else
          { relayURL := relayURL, walletPubKey := walletPubKeyOf parsed,
            secret := parsed.Query.Get "secret".toList, err := none } := by
  unfold ParseNWCURI
  simp only [h]

theorem walletPubKeyOf_eq (parsed : url.URL) :
    walletPubKeyOf parsed =
      if parsed.Host = [] then withoutLeadingSlash parsed.Path else parsed.Host := by
  unfold walletPubKeyOf withoutLeadingSlash
  by_cases h : parsed.Host = []
  · simp only [h, if_true]
    cases parsed.Path <;> rfl
  · simp only [h, if_false]

/-! ## The connection string (`ParseNWCURI`) -/

/-- C3: the connection string `proto://abc123?relay=a%25&secret=deadbeef` is
accepted by `url.Parse`, has the authority `abc123`, a `relay` parameter whose
value `a%25` is the percent-encoding of `a%`, and the `secret` parameter
`deadbeef`; the parsed query holds the relay value `a%`.  `ParseNWCURI`
returns the relay error for it, with an empty `relayURL` and `secret`.  On
the example of the specification it returns what the claim says. -/
theorem ParseNWCURI_present_relay_rejected :
    (∃ parsed, url.Parse "proto://abc123?relay=a%25&secret=deadbeef".toList = .ok parsed ∧
        parsed.Host = "abc123".toList ∧
        parsed.RawQuery = "relay=a%25&secret=deadbeef".toList ∧
        parsed.Query.Has "relay".toList = true ∧
        parsed.Query.Get "relay".toList = "a%".toList ∧
        parsed.Query.Has "secret".toList = true ∧
        parsed.Query.Get "secret".toList = "deadbeef".toList) ∧
      url.QueryUnescape "a%25".toList = .ok "a%".toList ∧
      ParseNWCURI "proto://abc123?relay=a%25&secret=deadbeef".toList =
        { relayURL := [], walletPubKey := "abc123".toList, secret := [],
          err := some .relayMissing } ∧
      ParseNWCURI "proto://abc123?relay=wss%3A%2F%2Frelay.example&secret=deadbeef".toList =
        { relayURL := "wss://relay.example".toList, walletPubKey := "abc123".toList,
          secret := "deadbeef".toList, err := none } :=
  ⟨⟨_, rfl, by decide, by decide, by decide, by decide, by decide, by decide⟩, rfl,
    by decide, by decide⟩

/-- C4: in `proto://abc123?relay=a%25&secret=s`, which `url.Parse` accepts,
the relay parameter is present, its value `a%25` decodes (to `a%`) and is not
empty, and the secret parameter is present and not empty; `ParseNWCURI`
returns the relay error.  The second decoding of line 21 is what fails:
`url.QueryUnescape` rejects the decoded value `a%` that the parsed query
holds.  The same string with the relay `a` is parsed without error. -/
theorem ParseNWCURI_decodable_relay_rejected :
    (∃ parsed, url.Parse "proto://abc123?relay=a%25&secret=s".toList = .ok parsed ∧
        parsed.RawQuery = "relay=a%25&secret=s".toList ∧
        parsed.Query = [("relay".toList, "a%".toList), ("secret".toList, "s".toList)]) ∧
      url.QueryUnescape "a%25".toList = .ok "a%".toList ∧
      url.QueryUnescape "a%".toList = .error (.escape "%".toList) ∧
      (ParseNWCURI "proto://abc123?relay=a%25&secret=s".toList).err = some .relayMissing ∧
      (ParseNWCURI "proto://abc123?relay=a&secret=s".toList).err = none ∧
      (ParseNWCURI "proto://abc123?relay=a&secret=s".toList).relayURL = "a".toList :=
  ⟨⟨_, rfl, by decide, by decide⟩, rfl, rfl, by decide, by decide, by decide⟩

/-- C5: `ParseNWCURI` decodes the relay value twice.  In
`proto://abc123?relay=wss%3A%2F%2Fr.example%2Fa%2520b&secret=deadbeef` the
relay value as written decodes to `wss://r.example/a%20b`, which is also the
value the parsed query holds; `ParseNWCURI` returns `wss://r.example/a b`. -/
theorem ParseNWCURI_relay_decoded_twice :
    url.QueryUnescape "wss%3A%2F%2Fr.example%2Fa%2520b".toList
        = .ok "wss://r.example/a%20b".toList ∧
      (∃ parsed,
        url.Parse "proto://abc123?relay=wss%3A%2F%2Fr.example%2Fa%2520b&secret=deadbeef".toList
          = .ok parsed ∧
        parsed.Query.Get "relay".toList = "wss://r.example/a%20b".toList) ∧
      (ParseNWCURI
        "proto://abc123?relay=wss%3A%2F%2Fr.example%2Fa%2520b&secret=deadbeef".toList).err = none ∧
      (ParseNWCURI
        "proto://abc123?relay=wss%3A%2F%2Fr.example%2Fa%2520b&secret=deadbeef".toList).relayURL
        = "wss://r.example/a b".toList :=
  ⟨rfl, ⟨_, rfl, by decide⟩, by decide, by decide⟩

/-- C6 (counterexample): with an empty authority, the path `/abc/def` gives
the wallet key `abc/def`, which holds a `/` and is not the first segment
`abc`; the path `//abc` gives `/abc`, which begins with `/`. -/
theorem ParseNWCURI_first_segment_counterexample :
    (∃ parsed,
        url.Parse "nostr+walletconnect:/abc/def?relay=wss%3A%2F%2Fr&secret=s".toList = .ok parsed ∧
        parsed.Host = [] ∧ parsed.Path = "/abc/def".toList ∧
        firstSegment parsed.Path = "abc".toList) ∧
      (ParseNWCURI "nostr+walletconnect:/abc/def?relay=wss%3A%2F%2Fr&secret=s".toList).err = none ∧
      (ParseNWCURI "nostr+walletconnect:/abc/def?relay=wss%3A%2F%2Fr&secret=s".toList).walletPubKey
        = "abc/def".toList ∧
      (∃ parsed,
        url.Parse "nostr+walletconnect:////abc?relay=wss%3A%2F%2Fr&secret=s".toList = .ok parsed ∧
        parsed.Host = [] ∧ parsed.Path = "//abc".toList ∧
        firstSegment parsed.Path = "abc".toList) ∧
      (ParseNWCURI "nostr+walletconnect:////abc?relay=wss%3A%2F%2Fr&secret=s".toList).err = none ∧
      (ParseNWCURI "nostr+walletconnect:////abc?relay=wss%3A%2F%2Fr&secret=s".toList).walletPubKey
        = "/abc".toList :=
  ⟨⟨_, rfl, by decide, by decide, by decide⟩, by decide, by decide,
   ⟨_, rfl, by decide, by decide, by decide⟩, by decide, by decide⟩

theorem firstSegment_single (seg : Str) (h : '/' ∉ seg) :
    firstSegment seg = seg ∧ firstSegment ('/' :: seg) = seg := by
  have htake : seg.takeWhile (· ≠ '/') = seg := by
    rw [List.takeWhile_eq_self_iff]
    intro x hx
    have : x ≠ '/' := fun hxe => h (hxe ▸ hx)
    simpa using this
  have hdrop : seg.dropWhile (· = '/') = seg := by
    cases seg with
    | nil => rfl
    | cons c t =>
      have hc : c ≠ '/' := fun hce => h (by simp [hce])
      simp [List.dropWhile, hc]
  constructor
  · unfold firstSegment
    rw [hdrop, htake]
  · unfold firstSegment
    simp only [List.dropWhile, decide_True]
    rw [hdrop, htake]

/-- C6 (amended): for every connection string that `url.Parse` accepts with
an empty authority, the wallet key returned is the decoded path with one
leading `/` taken off, when it has one; where the path is a single segment
`seg`, written `seg` or `/seg`, the wallet key is that segment, the first
segment of the path. -/
theorem ParseNWCURI_path (uri : Str) (parsed : url.URL)
    (hparse : url.Parse uri = .ok parsed) (hhost : parsed.Host = []) :
    (ParseNWCURI uri).walletPubKey = withoutLeadingSlash parsed.Path ∧
      ∀ seg, '/' ∉ seg → parsed.Path = seg ∨ parsed.Path = '/' :: seg →
        (ParseNWCURI uri).walletPubKey = seg ∧
        (ParseNWCURI uri).walletPubKey = firstSegment parsed.Path := by
  have hw : (ParseNWCURI uri).walletPubKey = withoutLeadingSlash parsed.Path := by
    rw [ParseNWCURI_of_parse hparse]
    cases url.QueryUnescape (parsed.Query.Get "relay".toList) with
    | error e => simp only [walletPubKeyOf_eq, hhost, if_true]
    | ok r =>
      simp only [walletPubKeyOf_eq, hhost, if_true]
      split_ifs <;> rfl
  refine ⟨hw, ?_⟩
  intro seg hseg hpath
  rw [hw]
  have hfirst := firstSegment_single seg hseg
  rcases hpath with hp | hp
  · rw [hp]
    refine ⟨?_, ?_⟩
    · cases seg with
      | nil => rfl
      | cons c t =>
        have hc : c ≠ '/' := fun hce => hseg (by simp [hce])
        simp [withoutLeadingSlash, hc]
    · rw [hfirst.1]
      cases seg with
      | nil => rfl
      | cons c t =>
        have hc : c ≠ '/' := fun hce => hseg (by simp [hce])
        simp [withoutLeadingSlash, hc]
  · rw [hp, hfirst.2]
    simp [withoutLeadingSlash]

/-- C6 (witness): the string `nostr+walletconnect:/abc/def?...` has the path
`/abc/def` and gets the wallet key `abc/def`; `nostr+walletconnect:/abc?...`
has the single segment `abc` and gets `abc`. -/
theorem ParseNWCURI_path_witness :
    (ParseNWCURI "nostr+walletconnect:/abc/def?relay=wss%3A%2F%2Fr&secret=s".toList).walletPubKey
        = "abc/def".toList ∧
      (ParseNWCURI "nostr+walletconnect:/abc?relay=wss%3A%2F%2Fr&secret=s".toList).walletPubKey
        = "abc".toList :=
  ⟨(ParseNWCURI_path "nostr+walletconnect:/abc/def?relay=wss%3A%2F%2Fr&secret=s".toList
      { Scheme := "nostr+walletconnect".toList, Path := "/abc/def".toList,
        RawQuery := "relay=wss%3A%2F%2Fr&secret=s".toList } rfl rfl).1,
   ((ParseNWCURI_path "nostr+walletconnect:/abc?relay=wss%3A%2F%2Fr&secret=s".toList
      { Scheme := "nostr+walletconnect".toList, Path := "/abc".toList,
        RawQuery := "relay=wss%3A%2F%2Fr&secret=s".toList } rfl rfl).2
      "abc".toList (by decide) (Or.inr rfl)).1⟩

/-- C10: `ParseNWCURI` does not require a remote identity.  For every
connection string that `url.Parse` accepts with an empty authority and an
empty path, whose `relay` parameter has a non-empty value that decodes and
whose `secret` parameter has a non-empty value, it returns a nil error, an
empty `walletPubKey`, and non-empty `relayURL` and `secret`. -/
theorem ParseNWCURI_no_identity (uri : Str) (parsed : url.URL) (relay : Str)
    (hparse : url.Parse uri = .ok parsed) (hhost : parsed.Host = []) (hpath : parsed.Path = [])
    (hrelay : parsed.Query.Get "relay".toList ≠ [])
    (hdecode : url.QueryUnescape (parsed.Query.Get "relay".toList) = .ok relay)
    (hsecret : parsed.Query.Get "secret".toList ≠ []) :
    (ParseNWCURI uri).err = none ∧ (ParseNWCURI uri).walletPubKey = [] ∧
      (ParseNWCURI uri).relayURL = relay ∧ (ParseNWCURI uri).relayURL ≠ [] ∧
      (ParseNWCURI uri).secret = parsed.Query.Get "secret".toList ∧
      (ParseNWCURI uri).secret ≠ [] := by
  have hne : relay ≠ [] := fun h0 => hrelay (url.QueryUnescape_eq_nil (h0 ▸ hdecode))
  rw [ParseNWCURI_of_parse hparse, hdecode]
  simp only [hne, hsecret, if_false, walletPubKeyOf_eq, hhost, hpath, if_true]
  exact ⟨trivial, rfl, trivial, hne, trivial, hsecret⟩

/-- C10 (witness): `?relay=wss%3A%2F%2Fr&secret=s` and the scheme-only form
`nostr+walletconnect:abc123?relay=wss%3A%2F%2Fr&secret=s` are both parsed
without error and with an empty wallet key; the `abc123` written after the
colon is not returned. -/
theorem ParseNWCURI_no_identity_witness :
    ((ParseNWCURI "?relay=wss%3A%2F%2Fr&secret=s".toList).err = none ∧
      (ParseNWCURI "?relay=wss%3A%2F%2Fr&secret=s".toList).walletPubKey = [] ∧
      (ParseNWCURI "?relay=wss%3A%2F%2Fr&secret=s".toList).relayURL = "wss://r".toList ∧
      (ParseNWCURI "?relay=wss%3A%2F%2Fr&secret=s".toList).secret = "s".toList) ∧
    ((ParseNWCURI "nostr+walletconnect:abc123?relay=wss%3A%2F%2Fr&secret=s".toList).err = none ∧
      (ParseNWCURI "nostr+walletconnect:abc123?relay=wss%3A%2F%2Fr&secret=s".toList).walletPubKey
        = [] ∧
      (ParseNWCURI "nostr+walletconnect:abc123?relay=wss%3A%2F%2Fr&secret=s".toList).relayURL
        = "wss://r".toList ∧
      (ParseNWCURI "nostr+walletconnect:abc123?relay=wss%3A%2F%2Fr&secret=s".toList).secret
        = "s".toList) :=
  have h1 := ParseNWCURI_no_identity "?relay=wss%3A%2F%2Fr&secret=s".toList
    { RawQuery := "relay=wss%3A%2F%2Fr&secret=s".toList } "wss://r".toList
    rfl rfl rfl (by decide) rfl (by decide)
  have h2 := ParseNWCURI_no_identity
    "nostr+walletconnect:abc123?relay=wss%3A%2F%2Fr&secret=s".toList
    { Scheme := "nostr+walletconnect".toList, OpaqueText := "abc123".toList,
      RawQuery := "relay=wss%3A%2F%2Fr&secret=s".toList } "wss://r".toList
    rfl rfl rfl (by decide) rfl (by decide)
  ⟨⟨h1.1, h1.2.1, h1.2.2.1, h1.2.2.2.2.1⟩, ⟨h2.1, h2.2.1, h2.2.2.1, h2.2.2.2.2.1⟩⟩

/-! ## The session (`sendRequest`) -/

/-- What `sendRequest` returns once the session reaches its subscription and
the subscription delivers `e` first. -/
theorem sendRequest_of_reaches {env : Env} {c : Client} {method : Str} {params : Params}
    {k : Str} {ev e : Event} {rest : List Event}
    (h : Reaches env c method params k ev (e :: rest)) :
    ∃ payload, env.Marshal method params = .ok payload ∧
      (∀ err, env.Decrypt e.Content k = .error err →
        sendRequest env c method params =
          { value := [], err := some err,
            calls := [.encrypt payload k, .connect c.RelayURL, .publish ev,
              .subscribe (responseFilters c ev), .decrypt e.Content k, .cancel, .close] }) ∧
      (∀ decrypted, env.Decrypt e.Content k = .ok decrypted →
        sendRequest env c method params =
          { value := decrypted, err := none,
            calls := [.encrypt payload k, .connect c.RelayURL, .publish ev,
              .subscribe (responseFilters c ev), .decrypt e.Content k, .cancel, .close] }) := by
  obtain ⟨payload, content, relay, h1, h2, h3, h4, h5, h6, h7⟩ := h
  refine ⟨payload, h1, ?_, ?_⟩
  · intro err hd
    unfold sendRequest
    simp only [h1, h2, h3, h4, h5, exchange, h6, awaitResponse, h7, hd]
    rfl
  · intro decrypted hd
    unfold sendRequest
    simp only [h1, h2, h3, h4, h5, exchange, h6, awaitResponse, h7, hd]
    rfl

/-- The first call of a request whose payload and shared secret are computed
is the encryption of that payload under that secret. -/
theorem sendRequest_calls_head (env : Env) (c : Client) (method : Str) (params : Params)
    (payload k : Str) (h1 : env.Marshal method params = .ok payload)
    (h2 : env.ComputeSharedSecret c.WalletPubKey c.ClientSecret = .ok k) :
    (sendRequest env c method params).calls.head? = some (.encrypt payload k) := by
  unfold sendRequest
  simp only [h1, h2]
  split
  · rfl
  · split
    · rfl
    · split <;> rfl

theorem call_carries {α β : Type} (env : Env) (c : Client) (method : Str) (params : Params)
    (decode : α → JSON → Except Error α) (zero : α) (failed : β) (project : α → β) :
    Carries (call env c method params decode zero failed project) env c method params
      decode zero failed project := by
  have hcalls : (call env c method params decode zero failed project).calls
      = (sendRequest env c method params).calls := by
    unfold call
    simp only []
    split
    · rfl
    · split <;> rfl
  refine ⟨hcalls, ?_, ?_, ?_, ?_⟩
  · intro payload k h1 h2
    rw [hcalls]
    exact sendRequest_calls_head env c method params payload k h1 h2
  · intro e he
    simp [call, he]
  · intro e he hu
    simp [call, he, hu]
  · intro r he hu
    simp [call, he, hu]

/-- An operation hands on the error of its request. -/
theorem call_of_error {α β : Type} (env : Env) (c : Client) (method : Str) (params : Params)
    (decode : α → JSON → Except Error α) (zero : α) (failed : β) (project : α → β) (e : Error)
    (h : (sendRequest env c method params).err = some e) :
    (call env c method params decode zero failed project).result = failed ∧
      (call env c method params decode zero failed project).err = some e := by
  simp [call, h]

/-- With `fakeEnv`, every request of `fakeClient` reaches its subscription. -/
theorem fakeEnv_reaches (delivered : List Event) (method : Str) (params : Params) :
    Reaches (fakeEnv delivered) fakeClient method params "w1s1".toList
      (fakeRequest method params) delivered :=
  ⟨fakeMarshal method params, "w1s1|".toList ++ fakeMarshal method params, fakeRelay delivered,
    rfl, rfl, rfl, rfl, rfl, rfl, rfl⟩

/-- C1 (counterexample): the relay delivers a response of the wallet to
another request (`id0`), then the response to this request (`id1`).  The
first fails the reference test and the second is the first event that passes
both tests, yet `sendRequest` returns the text of the first; `GetBalance`
reports the balance 7 of the other response, not 21.  The same happens when
the first event is of another author. -/
theorem sendRequest_unverified_counterexample :
    Reaches (fakeEnv [otherEvent balanceReply7, walletEvent balanceReply21]) fakeClient
        "get_balance".toList [] "w1s1".toList (fakeRequest "get_balance".toList [])
        [otherEvent balanceReply7, walletEvent balanceReply21] ∧
      (fakeRequest "get_balance".toList []).ID = "id1".toList ∧
      verified fakeClient "id1".toList (otherEvent balanceReply7) = false ∧
      firstVerified fakeClient "id1".toList [otherEvent balanceReply7, walletEvent balanceReply21]
        = some (walletEvent balanceReply21) ∧
      (fakeEnv [otherEvent balanceReply7, walletEvent balanceReply21]).Decrypt
        (walletEvent balanceReply21).Content "w1s1".toList = .ok balanceReply21 ∧
      (sendRequest (fakeEnv [otherEvent balanceReply7, walletEvent balanceReply21]) fakeClient
        "get_balance".toList []).err = none ∧
      (sendRequest (fakeEnv [otherEvent balanceReply7, walletEvent balanceReply21]) fakeClient
        "get_balance".toList []).value = balanceReply7 ∧
      balanceReply7 ≠ balanceReply21 ∧
      (GetBalance (fakeEnv [otherEvent balanceReply7, walletEvent balanceReply21])
        fakeClient).result = some { Balance := 7 } ∧
      verified fakeClient "id1".toList (foreignEvent balanceReply7) = false ∧
      firstVerified fakeClient "id1".toList [foreignEvent balanceReply7, walletEvent balanceReply21]
        = some (walletEvent balanceReply21) ∧
      (sendRequest (fakeEnv [foreignEvent balanceReply7, walletEvent balanceReply21]) fakeClient
        "get_balance".toList []).value = balanceReply7 :=
  ⟨fakeEnv_reaches _ _ _, rfl, by decide, by decide, rfl, by decide, by decide, by decide,
    by decide, by decide, by decide, by decide⟩

/-- C1 (amended): once the session reaches its subscription, `sendRequest`
returns the decryption of the first event the subscription delivers, whatever
its author and tags are and whatever follows it: the text with a nil error
when it decrypts, the empty text with the decryption error when it does not.
Sender and reference are named only in the filter handed to the relay (kind
23195, author `WalletPubKey`, `e` tag equal to the id of the signed request,
limit 1).  When the first delivered event passes both tests, it is the first
delivered event that does. -/
theorem sendRequest_first_delivered (env : Env) (c : Client) (method : Str) (params : Params)
    (k : Str) (ev e : Event) (rest : List Event)
    (h : Reaches env c method params k ev (e :: rest)) :
    (∀ decrypted, env.Decrypt e.Content k = .ok decrypted →
        (sendRequest env c method params).value = decrypted ∧
        (sendRequest env c method params).err = none) ∧
      (∀ err, env.Decrypt e.Content k = .error err →
        (sendRequest env c method params).value = [] ∧
        (sendRequest env c method params).err = some err) ∧
      Call.subscribe (responseFilters c ev) ∈ (sendRequest env c method params).calls ∧
      responseFilters c ev =
        [{ Kinds := [23195], Authors := [c.WalletPubKey], Tags := [("e".toList, [ev.ID])],
           Limit := 1 }] ∧
      (verified c ev.ID e = true → firstVerified c ev.ID (e :: rest) = some e) := by
  obtain ⟨payload, _, herr, hok⟩ := sendRequest_of_reaches h
  refine ⟨?_, ?_, ?_, rfl, ?_⟩
  · intro decrypted hd
    rw [hok decrypted hd]
    exact ⟨rfl, rfl⟩
  · intro err hd
    rw [herr err hd]
    exact ⟨rfl, rfl⟩
  · cases hd : env.Decrypt e.Content k with
    | error err =>
      rw [herr err hd]
      simp
    | ok decrypted =>
      rw [hok decrypted hd]
      simp
  · intro hv
    simp [firstVerified, List.find?, hv]

/-- C1 (witness): with the response to another request delivered first,
`sendRequest` returns its text. -/
theorem sendRequest_first_delivered_witness :
    (sendRequest (fakeEnv [otherEvent balanceReply7, walletEvent balanceReply21]) fakeClient
        "get_balance".toList []).value = balanceReply7 ∧
      (sendRequest (fakeEnv [otherEvent balanceReply7, walletEvent balanceReply21]) fakeClient
        "get_balance".toList []).err = none :=
  (sendRequest_first_delivered (fakeEnv [otherEvent balanceReply7, walletEvent balanceReply21])
    fakeClient "get_balance".toList [] "w1s1".toList (fakeRequest "get_balance".toList [])
    (otherEvent balanceReply7) [walletEvent balanceReply21]
    (fakeEnv_reaches _ _ _)).1 balanceReply7 rfl

/-- C7: when the first event the subscription delivers does not decrypt
under the shared secret, `sendRequest` returns the empty text and the
decryption error, and each of the seven operations returns that error with a
nil or empty result; the key of the one decryption is the shared secret `k`
of `ComputeSharedSecret`, under which the request was encrypted. -/
theorem sendRequest_decryption_failure (env : Env) (c : Client) (k : Str) (e : Event)
    (de : Error) (hdec : env.Decrypt e.Content k = .error de)
    (hreach : ∀ method params, ∃ ev rest, Reaches env c method params k ev (e :: rest)) :
    env.ComputeSharedSecret c.WalletPubKey c.ClientSecret = .ok k ∧
      (∀ method params,
        (sendRequest env c method params).value = [] ∧
        (sendRequest env c method params).err = some de ∧
        ∃ payload, env.Marshal method params = .ok payload ∧
          Call.encrypt payload k ∈ (sendRequest env c method params).calls ∧
          Call.decrypt e.Content k ∈ (sendRequest env c method params).calls ∧
          ∀ content key, Call.decrypt content key ∈ (sendRequest env c method params).calls →
            key = k) ∧
      ((GetBalance env c).result = none ∧ (GetBalance env c).err = some de) ∧
      (∀ amount memo, (MakeInvoice env c amount memo).result = [] ∧
        (MakeInvoice env c amount memo).err = some de) ∧
      (∀ invoice, (PayInvoice env c invoice).result = none ∧
        (PayInvoice env c invoice).err = some de) ∧
      (∀ pubkey amount, (PayKeysend env c pubkey amount).result = none ∧
        (PayKeysend env c pubkey amount).err = some de) ∧
      (∀ param, (LookupInvoice env c param).result = none ∧
        (LookupInvoice env c param).err = some de) ∧
      ((ListTransactions env c).result = none ∧ (ListTransactions env c).err = some de) ∧
      ((GetInfo env c).result = none ∧ (GetInfo env c).err = some de) := by
  have hsend : ∀ method params,
      (sendRequest env c method params).value = [] ∧
      (sendRequest env c method params).err = some de ∧
      ∃ payload, env.Marshal method params = .ok payload ∧
        Call.encrypt payload k ∈ (sendRequest env c method params).calls ∧
        Call.decrypt e.Content k ∈ (sendRequest env c method params).calls ∧
        ∀ content key, Call.decrypt content key ∈ (sendRequest env c method params).calls →
          key = k := by
    intro method params
    obtain ⟨ev, rest, hr⟩ := hreach method params
    obtain ⟨payload, hm, hs, _⟩ := sendRequest_of_reaches hr
    rw [hs de hdec]
    refine ⟨rfl, rfl, payload, hm, by simp, by simp, ?_⟩
    intro content key hmem
    simp at hmem
    exact hmem.2
  have herr : ∀ method params, (sendRequest env c method params).err = some de :=
    fun method params => (hsend method params).2.1
  have hk : env.ComputeSharedSecret c.WalletPubKey c.ClientSecret = .ok k := by
    obtain ⟨_, _, _, _, _, _, h2, _⟩ := hreach [] []
    exact h2
  refine ⟨hk, hsend, ?_, ?_, ?_, ?_, ?_, ?_, ?_⟩
  · exact call_of_error _ _ _ _ _ _ _ _ _ (herr _ _)
  · intro amount memo
    exact call_of_error _ _ _ _ _ _ _ _ _ (herr _ _)
  · intro invoice
    exact call_of_error _ _ _ _ _ _ _ _ _ (herr _ _)
  · intro pubkey amount
    exact call_of_error _ _ _ _ _ _ _ _ _ (herr _ _)
  · intro param
    exact call_of_error _ _ _ _ _ _ _ _ _ (herr _ _)
  · exact call_of_error _ _ _ _ _ _ _ _ _ (herr _ _)
  · exact call_of_error _ _ _ _ _ _ _ _ _ (herr _ _)

/-- C7 (witness): a response encrypted under another key makes `GetBalance`
and `MakeInvoice` return the decryption error and no result. -/
theorem sendRequest_decryption_failure_witness :
    ((GetBalance (fakeEnv [wrongKeyEvent balanceReply21]) fakeClient).result = none ∧
      (GetBalance (fakeEnv [wrongKeyEvent balanceReply21]) fakeClient).err
        = some (.external "nip04: invalid padding")) ∧
    ((MakeInvoice (fakeEnv [wrongKeyEvent balanceReply21]) fakeClient 1000 "coffee".toList).result
        = [] ∧
      (MakeInvoice (fakeEnv [wrongKeyEvent balanceReply21]) fakeClient 1000 "coffee".toList).err
        = some (.external "nip04: invalid padding")) :=
  have h := sendRequest_decryption_failure (fakeEnv [wrongKeyEvent balanceReply21]) fakeClient
    "w1s1".toList (wrongKeyEvent balanceReply21) (.external "nip04: invalid padding") rfl
    (fun method params => ⟨fakeRequest method params, [], fakeEnv_reaches _ method params⟩)
  ⟨h.2.2.1, h.2.2.2.1 1000 "coffee".toList⟩

/-- The five ways out of lines 91-117 of `sendRequest`. -/
theorem exchange_paths (env : Env) (relay : Relay) (c : Client) (ev : Event) (k : Str) :
    (∃ e, relay.Publish ev = some e ∧
      exchange env relay c ev k = { value := [], err := some e, calls := [.publish ev] }) ∨
    (∃ e, relay.Publish ev = none ∧ relay.Subscribe (responseFilters c ev) = .error e ∧
      exchange env relay c ev k =
        { value := [], err := some e,
          calls := [.publish ev, .subscribe (responseFilters c ev), .cancel] }) ∨
    (relay.Publish ev = none ∧ relay.Subscribe (responseFilters c ev) = .ok [] ∧
      exchange env relay c ev k =
        { value := [], err := some .noResponse,
          calls := [.publish ev, .subscribe (responseFilters c ev), .cancel] }) ∨
    (∃ first rest e, relay.Publish ev = none ∧
      relay.Subscribe (responseFilters c ev) = .ok (first :: rest) ∧
      env.Decrypt first.Content k = .error e ∧
      exchange env relay c ev k =
        { value := [], err := some e,
          calls := [.publish ev, .subscribe (responseFilters c ev),
            .decrypt first.Content k, .cancel] }) ∨
    (∃ first rest decrypted, relay.Publish ev = none ∧
      relay.Subscribe (responseFilters c ev) = .ok (first :: rest) ∧
      env.Decrypt first.Content k = .ok decrypted ∧
      exchange env relay c ev k =
        { value := decrypted, err := none,
          calls := [.publish ev, .subscribe (responseFilters c ev),
            .decrypt first.Content k, .cancel] }) := by
  cases hp : relay.Publish ev with
  | some e =>
    left
    exact ⟨e, rfl, by simp only [exchange, hp]⟩
  | none =>
    right
    cases hsub : relay.Subscribe (responseFilters c ev) with
    | error e =>
      left
      exact ⟨e, rfl, rfl, by simp only [exchange, awaitResponse, hp, hsub]⟩
    | ok events =>
      right
      cases events with
      | nil =>
        left
        exact ⟨rfl, rfl, by simp only [exchange, awaitResponse, hp, hsub]⟩
      | cons first rest =>
        right
        cases hd : env.Decrypt first.Content k with
        | error e =>
          left
          exact ⟨first, rest, e, rfl, rfl, hd, by simp only [exchange, awaitResponse, hp, hsub, hd]⟩
        | ok decrypted =>
          right
          exact ⟨first, rest, decrypted, rfl, rfl, hd,
            by simp only [exchange, awaitResponse, hp, hsub, hd]⟩

/-- C8: once the relay is connected, the last call `sendRequest` makes on
every way out is the one `relay.Close()`, made once for the one connection;
when the relay takes the request and the subscription ends without having
delivered an event, `sendRequest` returns the empty text and the no-response
error.  The ways out are: the publish error, the subscribe error, no event,
a decryption error, the decrypted text. -/
theorem sendRequest_closes (env : Env) (c : Client) (method : Str) (params : Params)
    (payload k content : Str) (ev : Event) (relay : Relay)
    (h1 : env.Marshal method params = .ok payload)
    (h2 : env.ComputeSharedSecret c.WalletPubKey c.ClientSecret = .ok k)
    (h3 : env.Encrypt payload k = .ok content)
    (h4 : env.Sign (requestEvent env c content) c.ClientSecret = .ok ev)
    (h5 : env.RelayConnect c.RelayURL = .ok relay) :
    (sendRequest env c method params).calls.getLast? = some .close ∧
      (sendRequest env c method params).calls.count .close = 1 ∧
      (sendRequest env c method params).calls.count (.connect c.RelayURL) = 1 ∧
      (relay.Publish ev = none → relay.Subscribe (responseFilters c ev) = .ok [] →
        (sendRequest env c method params).value = [] ∧
        (sendRequest env c method params).err = some .noResponse) ∧
      (∀ e, relay.Publish ev = some e →
        (sendRequest env c method params).value = [] ∧
        (sendRequest env c method params).err = some e) ∧
      (∀ e, relay.Publish ev = none → relay.Subscribe (responseFilters c ev) = .error e →
        (sendRequest env c method params).value = [] ∧
        (sendRequest env c method params).err = some e) ∧
      (∀ first rest e, relay.Publish ev = none →
        relay.Subscribe (responseFilters c ev) = .ok (first :: rest) →
        env.Decrypt first.Content k = .error e →
        (sendRequest env c method params).value = [] ∧
        (sendRequest env c method params).err = some e) ∧
      (∀ first rest decrypted, relay.Publish ev = none →
        relay.Subscribe (responseFilters c ev) = .ok (first :: rest) →
        env.Decrypt first.Content k = .ok decrypted →
        (sendRequest env c method params).value = decrypted ∧
        (sendRequest env c method params).err = none) := by
  have hs : sendRequest env c method params =
      { exchange env relay c ev k with
        calls := [.encrypt payload k, .connect c.RelayURL] ++ (exchange env relay c ev k).calls
          ++ [.close] } := by
    unfold sendRequest
    simp only [h1, h2, h3, h4, h5]
  rw [hs]
  rcases exchange_paths env relay c ev k with
    ⟨e, hp, hx⟩ | ⟨e, hp, hsub, hx⟩ | ⟨hp, hsub, hx⟩ | ⟨first, rest, e, hp, hsub, hd, hx⟩ |
    ⟨first, rest, decrypted, hp, hsub, hd, hx⟩
  · simp [hx, hp, List.count_cons]
  · simp [hx, hp, hsub, List.count_cons]
  · simp [hx, hp, hsub, List.count_cons]
  · simp only [hx, hp, hsub]
    refine ⟨by simp, by simp [List.count_cons], by simp [List.count_cons], by simp, by simp,
      by simp, ?_, ?_⟩
    · intro first2 rest2 e2 _ heq hd2
      injection heq with heq
      injection heq with hf hr
      subst hf
      rw [hd] at hd2
      injection hd2 with hd2
      subst hd2
      simp
    · intro first2 rest2 d2 _ heq hd2
      injection heq with heq
      injection heq with hf hr
      subst hf
      rw [hd] at hd2
      exact Except.noConfusion hd2
  · simp only [hx, hp, hsub]
    refine ⟨by simp, by simp [List.count_cons], by simp [List.count_cons], by simp, by simp,
      by simp, ?_, ?_⟩
    · intro first2 rest2 e2 _ heq hd2
      injection heq with heq
      injection heq with hf hr
      subst hf
      rw [hd] at hd2
      exact Except.noConfusion hd2
    · intro first2 rest2 d2 _ heq hd2
      injection heq with heq
      injection heq with hf hr
      subst hf
      rw [hd] at hd2
      injection hd2 with hd2
      subst hd2
      simp

/-- C8 (witness): a relay that delivers nothing makes `sendRequest` return
the no-response error, its last call being the close of the connection. -/
theorem sendRequest_closes_witness :
    (sendRequest (fakeEnv []) fakeClient "get_balance".toList []).calls.getLast? = some .close ∧
      (sendRequest (fakeEnv []) fakeClient "get_balance".toList []).value = [] ∧
      (sendRequest (fakeEnv []) fakeClient "get_balance".toList []).err = some .noResponse :=
  have h := sendRequest_closes (fakeEnv []) fakeClient "get_balance".toList []
    (fakeMarshal "get_balance".toList []) "w1s1".toList
    ("w1s1|".toList ++ fakeMarshal "get_balance".toList [])
    (fakeRequest "get_balance".toList []) (fakeRelay []) rfl rfl rfl rfl rfl
  ⟨h.1, h.2.2.2.1 rfl rfl⟩

/-! ## The operations -/

/-- An operation returns what its request's text decodes to. -/
theorem call_of_ok {α β : Type} (env : Env) (c : Client) (method : Str) (params : Params)
    (decode : α → JSON → Except Error α) (zero : α) (failed : β) (project : α → β) (r : α)
    (h : (sendRequest env c method params).err = none)
    (hu : Unmarshal decode zero (sendRequest env c method params).value = .ok r) :
    (call env c method params decode zero failed project).result = project r ∧
      (call env c method params decode zero failed project).err = none := by
  simp [call, h, hu]

/-- An operation hands on the error of unmarshalling. -/
theorem call_of_unmarshal_error {α β : Type} (env : Env) (c : Client) (method : Str)
    (params : Params) (decode : α → JSON → Except Error α) (zero : α) (failed : β)
    (project : α → β) (e : Error)
    (h : (sendRequest env c method params).err = none)
    (hu : Unmarshal decode zero (sendRequest env c method params).value = .error e) :
    (call env c method params decode zero failed project).result = failed ∧
      (call env c method params decode zero failed project).err = some e := by
  simp [call, h, hu]

theorem json.decodeMembers_append {α : Type} (set : α → Str → JSON → Except Error α)
    (xs ys : List (Str × JSON)) (cur : α) :
    json.decodeMembers set cur (xs ++ ys) =
      match json.decodeMembers set cur xs with
      | .error e => .error e
      | .ok mid => json.decodeMembers set mid ys := by
  induction xs generalizing cur with
  | nil => rfl
  | cons kv rest ih =>
    obtain ⟨key, v⟩ := kv
    simp only [List.cons_append, json.decodeMembers]
    cases set cur (json.foldName key) v with
    | error e => rfl
    | ok next => exact ih next

/-- Members that are not named `result`, or are `null`, leave
`struct { Result T }` as it is. -/
theorem json.decodeMembers_setResult_skip {α : Type} (decode : α → JSON → Except Error α)
    (hnull : ∀ cur, decode cur .null = .ok cur) (members : List (Str × JSON)) (cur : α)
    (h : ∀ kv ∈ members, json.foldName kv.1 = "result".toList → kv.2 = .null) :
    json.decodeMembers (setResult decode) cur members = .ok cur := by
  induction members with
  | nil => rfl
  | cons kv rest ih =>
    obtain ⟨key, v⟩ := kv
    have hrest : ∀ kv ∈ rest, json.foldName kv.1 = "result".toList → kv.2 = .null :=
      fun kv hkv => h kv (List.mem_cons_of_mem _ hkv)
    have hhead : setResult decode cur (json.foldName key) v = .ok cur := by
      unfold setResult
      by_cases hk : json.foldName key = "result".toList
      · have hv : v = .null := h (key, v) (List.mem_cons_self _ _) hk
        rw [if_pos hk, hv]
        exact hnull cur
      · rw [if_neg hk]
    simp only [json.decodeMembers, hhead]
    exact ih hrest

/-- A member that fits `InvoiceDetails` is decoded without error, and changes
the field `Invoice` only when it names it. -/
theorem InvoiceDetails.set_fits (d : InvoiceDetails) (kv : Str × JSON)
    (h : InvoiceDetails.fits kv = true) :
    ∃ d2, InvoiceDetails.set d (json.foldName kv.1) kv.2 = .ok d2 ∧
      (json.foldName kv.1 ≠ "invoice".toList → d2.Invoice = d.Invoice) := by
  obtain ⟨key, v⟩ := kv
  simp only [InvoiceDetails.fits] at h
  generalize json.foldName key = name at h ⊢
  unfold InvoiceDetails.set
  by_cases h1 : name = "type".toList
  · subst h1
    clear * - h
    cases v <;> simp_all [json.decodeString, json.fitsString, Except.map]
  by_cases h2 : name = "invoice".toList
  · subst h2
    clear * - h
    cases v <;> simp_all [json.decodeString, json.fitsString, Except.map]
  by_cases h3 : name = "description".toList
  · subst h3
    clear * - h
    cases v <;> simp_all [json.decodeString, json.fitsString, Except.map]
  by_cases h4 : name = "description_hash".toList
  · subst h4
    clear * - h
    cases v <;> simp_all [json.decodeString, json.fitsString, Except.map]
  by_cases h5 : name = "preimage".toList
  · subst h5
    clear * - h
    cases v <;> simp_all [json.decodeString, json.fitsString, Except.map]
  by_cases h6 : name = "payment_hash".toList
  · subst h6
    clear * - h
    cases v <;> simp_all [json.decodeString, json.fitsString, Except.map]
  by_cases h7 : name = "amount".toList
  · subst h7
    clear * - h
    cases v with
    | number literal =>
      cases hp : json.parseInt64 literal <;>
        simp_all [json.decodeInt64, json.fitsInt64, Except.map]
    | _ => simp_all [json.decodeInt64, json.fitsInt64, Except.map]
  by_cases h8 : name = "fees_paid".toList
  · subst h8
    clear * - h
    cases v with
    | number literal =>
      cases hp : json.parseInt64 literal <;>
        simp_all [json.decodeInt64, json.fitsInt64, Except.map]
    | _ => simp_all [json.decodeInt64, json.fitsInt64, Except.map]
  by_cases h9 : name = "created_at".toList
  · subst h9
    clear * - h
    cases v with
    | number literal =>
      cases hp : json.parseInt64 literal <;>
        simp_all [json.decodeInt64, json.fitsInt64, Except.map]
    | _ => simp_all [json.decodeInt64, json.fitsInt64, Except.map]
  by_cases h10 : name = "expires_at".toList
  · subst h10
    clear * - h
    cases v with
    | number literal =>
      cases hp : json.parseInt64 literal <;>
        simp_all [json.decodeInt64, json.fitsInt64, Except.map]
    | _ => simp_all [json.decodeInt64, json.fitsInt64, Except.map]
  by_cases h11 : name = "settled_at".toList
  · subst h11
    clear * - h
    cases v with
    | number literal =>
      cases hp : json.parseInt64 literal <;>
        simp_all [json.decodeInt64, json.fitsInt64, Except.map]
    | _ => simp_all [json.decodeInt64, json.fitsInt64, Except.map]
  by_cases h12 : name = "metadata".toList
  · subst h12
    clear * - h
    cases v <;> simp_all [json.decodeMap, json.fitsMap, Except.map]
  · refine ⟨d, ?_, fun _ => rfl⟩
    rw [if_neg h1, if_neg h2, if_neg h3, if_neg h4, if_neg h5, if_neg h6, if_neg h7, if_neg h8,
      if_neg h9, if_neg h10, if_neg h11, if_neg h12]

theorem InvoiceDetails.decodeMembers_fits (members : List (Str × JSON)) (d : InvoiceDetails)
    (h : ∀ kv ∈ members, InvoiceDetails.fits kv = true) :
    ∃ d2, json.decodeMembers InvoiceDetails.set d members = .ok d2 ∧
      ((∀ kv ∈ members, json.foldName kv.1 ≠ "invoice".toList) → d2.Invoice = d.Invoice) := by
  induction members generalizing d with
  | nil => exact ⟨d, rfl, fun _ => rfl⟩
  | cons kv rest ih =>
    obtain ⟨d1, h1, hinv1⟩ := InvoiceDetails.set_fits d kv (h kv (List.mem_cons_self _ _))
    obtain ⟨d2, h2, hinv2⟩ := ih d1 (fun x hx => h x (List.mem_cons_of_mem _ hx))
    refine ⟨d2, ?_, ?_⟩
    · obtain ⟨key, v⟩ := kv
      simp only [json.decodeMembers, h1]
      exact h2
    · intro hno
      rw [hinv2 (fun x hx => hno x (List.mem_cons_of_mem _ hx)),
        hinv1 (hno kv (List.mem_cons_self _ _))]

/-- The `result` object `a ++ ("invoice", s) :: b` decodes to a record whose
`Invoice` is `s`, when the other members fit and none in `b` names `invoice`. -/
theorem InvoiceDetails.decode_invoice (a b : List (Str × JSON)) (s : Str)
    (hfit : ∀ kv ∈ a ++ b, InvoiceDetails.fits kv = true)
    (hone : ∀ kv ∈ b, json.foldName kv.1 ≠ "invoice".toList) :
    ∃ d, InvoiceDetails.decode {} (.object (a ++ ("invoice".toList, .string s) :: b)) = .ok d ∧
      d.Invoice = s := by
  obtain ⟨d1, h1, _⟩ := InvoiceDetails.decodeMembers_fits a {}
    (fun kv hkv => hfit kv (List.mem_append_left _ hkv))
  obtain ⟨d2, h2, hinv⟩ := InvoiceDetails.decodeMembers_fits b { d1 with Invoice := s }
    (fun kv hkv => hfit kv (List.mem_append_right _ hkv))
  refine ⟨d2, ?_, ?_⟩
  · show json.decodeMembers InvoiceDetails.set {} (a ++ ("invoice".toList, .string s) :: b)
      = .ok d2
    rw [json.decodeMembers_append, h1]
    have hset : InvoiceDetails.set d1 (json.foldName "invoice".toList) (.string s)
        = .ok { d1 with Invoice := s } := rfl
    simp only [json.decodeMembers, hset]
    exact h2
  · rw [hinv hone]

/-- Unmarshalling a text that spells an object decodes its members in turn. -/
theorem Unmarshal_object {α : Type} (decode : α → JSON → Except Error α) (zero : α) (raw : Str)
    (members : List (Str × JSON)) (h : json.parseText raw = some (.object members)) :
    Unmarshal decode zero raw = json.decodeMembers (setResult decode) zero members := by
  unfold Unmarshal
  rw [h]
  rfl

/-- C2 (counterexample): the reply
`{"result_type":"get_balance","error":{"code":"UNAUTHORIZED","message":"no"}}`
carries an `error` field; delivered as the response, it makes `GetBalance`
return a nil error with the balance 0, `MakeInvoice` a nil error with the
empty invoice, and `PayInvoice` a nil error with the empty preimage. -/
theorem operations_error_reply_counterexample :
    json.parseText errorReply =
        some (.object [("result_type".toList, .string "get_balance".toList),
          ("error".toList, .object [("code".toList, .string "UNAUTHORIZED".toList),
            ("message".toList, .string "no".toList)])]) ∧
      (sendRequest (fakeEnv [walletEvent errorReply]) fakeClient "get_balance".toList []).value
        = errorReply ∧
      (GetBalance (fakeEnv [walletEvent errorReply]) fakeClient).err = none ∧
      (GetBalance (fakeEnv [walletEvent errorReply]) fakeClient).result = some { Balance := 0 } ∧
      (MakeInvoice (fakeEnv [walletEvent errorReply]) fakeClient 1000 "coffee".toList).err = none ∧
      (MakeInvoice (fakeEnv [walletEvent errorReply]) fakeClient 1000 "coffee".toList).result = [] ∧
      (PayInvoice (fakeEnv [walletEvent errorReply]) fakeClient "lnbc1".toList).err = none ∧
      (PayInvoice (fakeEnv [walletEvent errorReply]) fakeClient "lnbc1".toList).result
        = some { Preimage := [], FeesPaid := 0 } :=
  ⟨rfl, by decide, by decide, by decide, by decide, by decide, by decide, by decide⟩

/-- C2 (amended): the operations read the `result` field of the reply and no
other.  For every decrypted reply document that has no `result` field, or a
`null` one, whatever else it carries (an `error` field too), each of the seven
operations returns a nil error together with the zero value of its result:
balance 0, the empty invoice string, an empty preimage with fee 0, an empty
invoice record, the nil transaction list, an empty info record. -/
theorem operations_ignore_error_field (env : Env) (c : Client) (raw : Str)
    (members : List (Str × JSON))
    (hsend : ∀ method params, (sendRequest env c method params).err = none ∧
      (sendRequest env c method params).value = raw)
    (hdoc : json.parseText raw = some (.object members))
    (hresult : ∀ kv ∈ members, json.foldName kv.1 = "result".toList → kv.2 = .null) :
    ((GetBalance env c).err = none ∧ (GetBalance env c).result = some { Balance := 0 }) ∧
      (∀ amount memo, (MakeInvoice env c amount memo).err = none ∧
        (MakeInvoice env c amount memo).result = []) ∧
      (∀ invoice, (PayInvoice env c invoice).err = none ∧
        (PayInvoice env c invoice).result = some { Preimage := [], FeesPaid := 0 }) ∧
      (∀ pubkey amount, (PayKeysend env c pubkey amount).err = none ∧
        (PayKeysend env c pubkey amount).result = some { Preimage := [], FeesPaid := 0 }) ∧
      (∀ param, (LookupInvoice env c param).err = none ∧
        (LookupInvoice env c param).result = some {}) ∧
      ((ListTransactions env c).err = none ∧ (ListTransactions env c).result = none) ∧
      ((GetInfo env c).err = none ∧ (GetInfo env c).result = some {}) := by
  have hun : ∀ {α : Type} (decode : α → JSON → Except Error α) (zero : α)
      (_ : ∀ cur, decode cur .null = .ok cur) (method : Str) (params : Params),
      Unmarshal decode zero (sendRequest env c method params).value = .ok zero := by
    intro α decode zero hnull method params
    rw [(hsend method params).2, Unmarshal_object decode zero raw members hdoc]
    exact json.decodeMembers_setResult_skip decode hnull members zero hresult
  have hop : ∀ {α β : Type} (decode : α → JSON → Except Error α) (zero : α)
      (_ : ∀ cur, decode cur .null = .ok cur) (method : Str) (params : Params)
      (failed : β) (project : α → β),
      (call env c method params decode zero failed project).err = none ∧
      (call env c method params decode zero failed project).result = project zero := by
    intro α β decode zero hnull method params failed project
    have h := call_of_ok env c method params decode zero failed project zero
      (hsend method params).1 (hun decode zero hnull method params)
    exact ⟨h.2, h.1⟩
  refine ⟨?_, ?_, ?_, ?_, ?_, ?_, ?_⟩
  · exact hop BalanceResult.decode {} (fun _ => rfl) _ _ _ _
  · intro amount memo
    exact hop InvoiceDetails.decode {} (fun _ => rfl) _ _ _ _
  · intro invoice
    exact hop PaymentResult.decode {} (fun _ => rfl) _ _ _ _
  · intro pubkey amount
    exact hop PaymentResult.decode {} (fun _ => rfl) _ _ _ _
  · intro param
    exact hop InvoiceDetails.decode {} (fun _ => rfl) _ _ _ _
  · exact hop TransactionsResult.decode {} (fun _ => rfl) _ _ _ _
  · exact hop InfoResult.decode {} (fun _ => rfl) _ _ _ _

/-- C2 (witness): with the error reply delivered, `GetBalance` returns the
balance 0 and `GetInfo` an empty record, both with a nil error. -/
theorem operations_ignore_error_field_witness :
    ((GetBalance (fakeEnv [walletEvent errorReply]) fakeClient).err = none ∧
      (GetBalance (fakeEnv [walletEvent errorReply]) fakeClient).result
        = some { Balance := 0 }) ∧
    ((GetInfo (fakeEnv [walletEvent errorReply]) fakeClient).err = none ∧
      (GetInfo (fakeEnv [walletEvent errorReply]) fakeClient).result = some {}) :=
  have h := operations_ignore_error_field (fakeEnv [walletEvent errorReply]) fakeClient
    errorReply
    [("result_type".toList, .string "get_balance".toList),
      ("error".toList, .object [("code".toList, .string "UNAUTHORIZED".toList),
        ("message".toList, .string "no".toList)])]
    (fun _ _ => ⟨rfl, rfl⟩) rfl
    (by
      intro kv hkv hname
      simp only [List.mem_cons, List.mem_singleton, List.not_mem_nil, or_false] at hkv
      rcases hkv with rfl | rfl
      · exact absurd hname (by decide)
      · exact absurd hname (by decide))
  ⟨h.1, h.2.2.2.2.2.2⟩

theorem json.decodeInt64_number (cur : Int) (literal : Str) (n : Int)
    (h : json.parseInt64 literal = some n) :
    json.decodeInt64 cur (.number literal) = .ok n := by
  simp only [json.decodeInt64, h]

theorem json.decodeMap_object (cur : Option (List (Str × JSON))) (members : List (Str × JSON))
    (h : json.membersFitInterface members = true) :
    json.decodeMap cur (.object members) = .ok (some (cur.getD [] ++ members)) := by
  simp only [json.decodeMap, h, if_true]

theorem json.decodeItems_strings (cur : List Str) (texts : List Str) :
    json.decodeItems json.decodeString [] cur (texts.map JSON.string) = .ok texts := by
  induction texts generalizing cur with
  | nil => rfl
  | cons t rest ih =>
    simp only [List.map_cons, json.decodeItems, json.decodeString, ih]

theorem json.decodeItems_records {α : Type} (dec : α → JSON → Except Error α) (zero : α)
    (items : List JSON) (records : List α)
    (h : List.Forall₂ (fun j r => dec zero j = .ok r) items records) :
    json.decodeItems dec zero [] items = .ok records := by
  induction h with
  | nil => rfl
  | cons hhead _ ih =>
    simp only [json.decodeItems, List.headD_nil, hhead, List.tail_nil, ih]

/-- A `result` object that writes the twelve fields of `InvoiceDetails` decodes
to the record of their values. -/
theorem InvoiceDetails.decode_invoice_record (type invoice description descriptionHash preimage
    paymentHash amount feesPaid createdAt expiresAt settledAt : Str)
    (metadata : List (Str × JSON)) (a f cr ex st : Int)
    (ha : json.parseInt64 amount = some a) (hf : json.parseInt64 feesPaid = some f)
    (hcr : json.parseInt64 createdAt = some cr) (hex : json.parseInt64 expiresAt = some ex)
    (hst : json.parseInt64 settledAt = some st)
    (hm : json.membersFitInterface metadata = true) :
    InvoiceDetails.decode {}
      (.object [("type".toList, .string type), ("invoice".toList, .string invoice),
        ("description".toList, .string description),
        ("description_hash".toList, .string descriptionHash),
        ("preimage".toList, .string preimage), ("payment_hash".toList, .string paymentHash),
        ("amount".toList, .number amount), ("fees_paid".toList, .number feesPaid),
        ("created_at".toList, .number createdAt), ("expires_at".toList, .number expiresAt),
        ("settled_at".toList, .number settledAt), ("metadata".toList, .object metadata)]) =
      .ok { Type_ := type, Invoice := invoice, Description := description,
            DescriptionHash := descriptionHash, Preimage := preimage, PaymentHash := paymentHash,
            Amount := a, FeesPaid := f, CreatedAt := cr, ExpiresAt := ex, SettledAt := st,
            Metadata := some metadata } := by
  have h1 : ∀ d v, InvoiceDetails.set d (json.foldName "type".toList) v
      = (json.decodeString d.Type_ v).map fun x => { d with Type_ := x } := fun _ _ => rfl
  have h2 : ∀ d v, InvoiceDetails.set d (json.foldName "invoice".toList) v
      = (json.decodeString d.Invoice v).map fun x => { d with Invoice := x } := fun _ _ => rfl
  have h3 : ∀ d v, InvoiceDetails.set d (json.foldName "description".toList) v
      = (json.decodeString d.Description v).map fun x => { d with Description := x } :=
    fun _ _ => rfl
  have h4 : ∀ d v, InvoiceDetails.set d (json.foldName "description_hash".toList) v
      = (json.decodeString d.DescriptionHash v).map fun x => { d with DescriptionHash := x } :=
    fun _ _ => rfl
  have h5 : ∀ d v, InvoiceDetails.set d (json.foldName "preimage".toList) v
      = (json.decodeString d.Preimage v).map fun x => { d with Preimage := x } := fun _ _ => rfl
  have h6 : ∀ d v, InvoiceDetails.set d (json.foldName "payment_hash".toList) v
      = (json.decodeString d.PaymentHash v).map fun x => { d with PaymentHash := x } :=
    fun _ _ => rfl
  have h7 : ∀ d v, InvoiceDetails.set d (json.foldName "amount".toList) v
      = (json.decodeInt64 d.Amount v).map fun x => { d with Amount := x } := fun _ _ => rfl
  have h8 : ∀ d v, InvoiceDetails.set d (json.foldName "fees_paid".toList) v
      = (json.decodeInt64 d.FeesPaid v).map fun x => { d with FeesPaid := x } := fun _ _ => rfl
  have h9 : ∀ d v, InvoiceDetails.set d (json.foldName "created_at".toList) v
      = (json.decodeInt64 d.CreatedAt v).map fun x => { d with CreatedAt := x } := fun _ _ => rfl
  have h10 : ∀ d v, InvoiceDetails.set d (json.foldName "expires_at".toList) v
      = (json.decodeInt64 d.ExpiresAt v).map fun x => { d with ExpiresAt := x } := fun _ _ => rfl
  have h11 : ∀ d v, InvoiceDetails.set d (json.foldName "settled_at".toList) v
      = (json.decodeInt64 d.SettledAt v).map fun x => { d with SettledAt := x } := fun _ _ => rfl
  have h12 : ∀ d v, InvoiceDetails.set d (json.foldName "metadata".toList) v
      = (json.decodeMap d.Metadata v).map fun x => { d with Metadata := x } := fun _ _ => rfl
  show json.decodeMembers InvoiceDetails.set {} _ = _
  simp only [json.decodeMembers, h1, h2, h3, h4, h5, h6, h7, h8, h9, h10, h11, h12,
    json.decodeString, json.decodeInt64_number _ _ _ ha, json.decodeInt64_number _ _ _ hf,
    json.decodeInt64_number _ _ _ hcr, json.decodeInt64_number _ _ _ hex,
    json.decodeInt64_number _ _ _ hst, json.decodeMap_object _ _ hm, Except.map]
  rfl

theorem BalanceResult.decode_balance_record (literal : Str) (n : Int)
    (h : json.parseInt64 literal = some n) :
    BalanceResult.decode {} (.object [("balance".toList, .number literal)])
      = .ok { Balance := n } := by
  have h1 : ∀ d v, BalanceResult.set d (json.foldName "balance".toList) v
      = (json.decodeInt64 d.Balance v).map fun x => { d with Balance := x } := fun _ _ => rfl
  show json.decodeMembers BalanceResult.set {} _ = _
  simp only [json.decodeMembers, h1, json.decodeInt64_number _ _ _ h, Except.map]

theorem PaymentResult.decode_payment_record (preimage feesPaid : Str) (f : Int)
    (h : json.parseInt64 feesPaid = some f) :
    PaymentResult.decode {}
      (.object [("preimage".toList, .string preimage), ("fees_paid".toList, .number feesPaid)])
      = .ok { Preimage := preimage, FeesPaid := f } := by
  have h1 : ∀ d v, PaymentResult.set d (json.foldName "preimage".toList) v
      = (json.decodeString d.Preimage v).map fun x => { d with Preimage := x } := fun _ _ => rfl
  have h2 : ∀ d v, PaymentResult.set d (json.foldName "fees_paid".toList) v
      = (json.decodeInt64 d.FeesPaid v).map fun x => { d with FeesPaid := x } := fun _ _ => rfl
  show json.decodeMembers PaymentResult.set {} _ = _
  simp only [json.decodeMembers, h1, h2, json.decodeString, json.decodeInt64_number _ _ _ h,
    Except.map]

theorem TransactionsResult.decode_transactions_record (items : List JSON) (records : List InvoiceDetails)
    (h : List.Forall₂ (fun j r => InvoiceDetails.decode {} j = .ok r) items records) :
    TransactionsResult.decode {} (.object [("transactions".toList, .array items)])
      = .ok { Transactions := some records } := by
  have h1 : ∀ d v, TransactionsResult.set d (json.foldName "transactions".toList) v
      = (json.decodeSlice InvoiceDetails.decode {} d.Transactions v).map
          fun x => { d with Transactions := x } := fun _ _ => rfl
  have h2 : json.decodeSlice InvoiceDetails.decode {} none (.array items) = .ok (some records) := by
    simp only [json.decodeSlice, Option.getD_none,
      json.decodeItems_records InvoiceDetails.decode {} items records h]
  show json.decodeMembers TransactionsResult.set {} _ = _
  simp only [json.decodeMembers, h1, h2, Except.map]

theorem InfoResult.decode_info_record (aliasText pubkey network color blockHeight blockHash : Str)
    (methods notifications : List Str) (height : Int)
    (h : json.parseInt64 blockHeight = some height) :
    InfoResult.decode {}
      (.object [("alias".toList, .string aliasText), ("pubkey".toList, .string pubkey),
        ("network".toList, .string network),
        ("methods".toList, .array (methods.map JSON.string)),
        ("color".toList, .string color), ("block_height".toList, .number blockHeight),
        ("block_hash".toList, .string blockHash),
        ("notifications".toList, .array (notifications.map JSON.string))]) =
      .ok { Alias := aliasText, Pubkey := pubkey, Network := network, Methods := some methods,
            Color := color, BlockHeight := height, BlockHash := blockHash,
            Notifications := some notifications } := by
  have h1 : ∀ d v, InfoResult.set d (json.foldName "alias".toList) v
      = (json.decodeString d.Alias v).map fun x => { d with Alias := x } := fun _ _ => rfl
  have h2 : ∀ d v, InfoResult.set d (json.foldName "pubkey".toList) v
      = (json.decodeString d.Pubkey v).map fun x => { d with Pubkey := x } := fun _ _ => rfl
  have h3 : ∀ d v, InfoResult.set d (json.foldName "network".toList) v
      = (json.decodeString d.Network v).map fun x => { d with Network := x } := fun _ _ => rfl
  have h4 : ∀ d v, InfoResult.set d (json.foldName "methods".toList) v
      = (json.decodeSlice json.decodeString [] d.Methods v).map
          fun x => { d with Methods := x } := fun _ _ => rfl
  have h5 : ∀ d v, InfoResult.set d (json.foldName "color".toList) v
      = (json.decodeString d.Color v).map fun x => { d with Color := x } := fun _ _ => rfl
  have h6 : ∀ d v, InfoResult.set d (json.foldName "block_height".toList) v
      = (json.decodeInt64 d.BlockHeight v).map fun x => { d with BlockHeight := x } :=
    fun _ _ => rfl
  have h7 : ∀ d v, InfoResult.set d (json.foldName "block_hash".toList) v
      = (json.decodeString d.BlockHash v).map fun x => { d with BlockHash := x } :=
    fun _ _ => rfl
  have h8 : ∀ d v, InfoResult.set d (json.foldName "notifications".toList) v
      = (json.decodeSlice json.decodeString [] d.Notifications v).map
          fun x => { d with Notifications := x } := fun _ _ => rfl
  have hs : ∀ cur texts, json.decodeSlice json.decodeString [] cur (.array (texts.map JSON.string))
      = .ok (some texts) := by
    intro cur texts
    simp only [json.decodeSlice, json.decodeItems_strings]
  show json.decodeMembers InfoResult.set {} _ = _
  simp only [json.decodeMembers, h1, h2, h3, h4, h5, h6, h7, h8, hs, json.decodeString,
    json.decodeInt64_number _ _ _ h, Except.map]

/-- Unmarshalling a reply document into `struct { Result T }` decodes its
`result` field into `Result`. -/
theorem Unmarshal_result {α : Type} (decode : α → JSON → Except Error α)
    (hnull : ∀ cur, decode cur .null = .ok cur) (zero : α) (raw : Str) (v : JSON)
    (h : ResultOf raw v) : Unmarshal decode zero raw = decode zero v := by
  obtain ⟨before, after, hdoc, hother⟩ := h
  rw [Unmarshal_object decode zero raw _ hdoc, json.decodeMembers_append,
    json.decodeMembers_setResult_skip decode hnull before zero
      (fun kv hkv hname => absurd hname (hother kv (List.mem_append_left _ hkv)))]
  have hset : setResult decode zero (json.foldName "result".toList) v = decode zero v := rfl
  simp only [json.decodeMembers, hset]
  cases hd : decode zero v with
  | error e => rfl
  | ok d =>
    exact json.decodeMembers_setResult_skip decode hnull after d
      (fun kv hkv hname => absurd hname (hother kv (List.mem_append_right _ hkv)))

/-- An operation whose request is answered by a reply whose `result` field
decodes to `d` returns `project d` with a nil error. -/
theorem call_of_result {α β : Type} (env : Env) (c : Client) (method : Str) (params : Params)
    (decode : α → JSON → Except Error α) (hnull : ∀ cur, decode cur .null = .ok cur) (zero : α)
    (failed : β) (project : α → β) (raw : Str) (v : JSON) (d : α)
    (hans : Answers env c method params raw) (hres : ResultOf raw v)
    (hd : decode zero v = .ok d) :
    (call env c method params decode zero failed project).result = project d ∧
      (call env c method params decode zero failed project).err = none := by
  have hun : Unmarshal decode zero (sendRequest env c method params).value = .ok d := by
    rw [hans.2, Unmarshal_result decode hnull zero raw v hres, hd]
  exact call_of_ok env c method params decode zero failed project d hans.1 hun

set_option maxRecDepth 20000 in
/-- C9: each operation makes one request with the method name and the
parameters of the table (`Carries`): `get_balance`, `list_transactions` and
`get_info` with no parameters, `make_invoice` with `amount` and
`description`, `pay_invoice` and `lookup_invoice` with `invoice`,
`pay_keysend` with `amount` and `pubkey`.  When the request is answered by a
reply document whose `result` field writes the fields of the operation's
result shape, the operation returns the record of their values with a nil
error: the balance, the preimage and the fee, the twelve fields of
`InvoiceDetails`, the list of transactions, the eight fields of the info
record.  For every reply whose `result` object has an `invoice` member `s`
after which no member names `invoice`, its other members being members of
`InvoiceDetails` (each names no field, or is `null`, or is a string for a
text field, an integer within `int64` for a numeric field, an object whose
numbers are within `float64` for `metadata`), `MakeInvoice` returns `s` with
a nil error; the reply `{"result":{"invoice":"lnbc1..."}}` to
`MakeInvoice(1000, "coffee")` gives `lnbc1...`. -/
theorem operations_follow_table (env : Env) (c : Client) :
    (Carries (GetBalance env c) env c "get_balance".toList [] BalanceResult.decode {} none some ∧
      (∀ amount memo, Carries (MakeInvoice env c amount memo) env c "make_invoice".toList
        [("amount".toList, .int amount), ("description".toList, .str memo)]
        InvoiceDetails.decode {} [] (fun r => r.Invoice)) ∧
      (∀ invoice, Carries (PayInvoice env c invoice) env c "pay_invoice".toList
        [("invoice".toList, .str invoice)] PaymentResult.decode {} none some) ∧
      (∀ pubkey amount, Carries (PayKeysend env c pubkey amount) env c "pay_keysend".toList
        [("amount".toList, .int amount), ("pubkey".toList, .str pubkey)]
        PaymentResult.decode {} none some) ∧
      (∀ param, Carries (LookupInvoice env c param) env c "lookup_invoice".toList
        [("invoice".toList, .str param)] InvoiceDetails.decode {} none some) ∧
      Carries (ListTransactions env c) env c "list_transactions".toList []
        TransactionsResult.decode {} none (fun r => r.Transactions) ∧
      Carries (GetInfo env c) env c "get_info".toList [] InfoResult.decode {} none some) ∧
    (∀ raw balance n,
      Answers env c "get_balance".toList [] raw →
      ResultOf raw (.object [("balance".toList, .number balance)]) →
      json.parseInt64 balance = some n →
      (GetBalance env c).result = some { Balance := n } ∧ (GetBalance env c).err = none) ∧
    (∀ amount memo raw a b s,
      Answers env c "make_invoice".toList
        [("amount".toList, .int amount), ("description".toList, .str memo)] raw →
      ResultOf raw (.object (a ++ ("invoice".toList, .string s) :: b)) →
      (∀ kv ∈ a ++ b, InvoiceDetails.fits kv = true) →
      (∀ kv ∈ b, json.foldName kv.1 ≠ "invoice".toList) →
      (MakeInvoice env c amount memo).result = s ∧ (MakeInvoice env c amount memo).err = none) ∧
    (∀ invoice raw preimage feesPaid f,
      Answers env c "pay_invoice".toList [("invoice".toList, .str invoice)] raw →
      ResultOf raw (.object [("preimage".toList, .string preimage),
        ("fees_paid".toList, .number feesPaid)]) →
      json.parseInt64 feesPaid = some f →
      (PayInvoice env c invoice).result = some { Preimage := preimage, FeesPaid := f } ∧
      (PayInvoice env c invoice).err = none) ∧
    (∀ pubkey amount raw preimage feesPaid f,
      Answers env c "pay_keysend".toList
        [("amount".toList, .int amount), ("pubkey".toList, .str pubkey)] raw →
      ResultOf raw (.object [("preimage".toList, .string preimage),
        ("fees_paid".toList, .number feesPaid)]) →
      json.parseInt64 feesPaid = some f →
      (PayKeysend env c pubkey amount).result = some { Preimage := preimage, FeesPaid := f } ∧
      (PayKeysend env c pubkey amount).err = none) ∧
    (∀ param raw type invoice description descriptionHash preimage paymentHash amount feesPaid
        createdAt expiresAt settledAt metadata a f cr ex st,
      Answers env c "lookup_invoice".toList [("invoice".toList, .str param)] raw →
      ResultOf raw
        (.object [("type".toList, .string type), ("invoice".toList, .string invoice),
          ("description".toList, .string description),
          ("description_hash".toList, .string descriptionHash),
          ("preimage".toList, .string preimage), ("payment_hash".toList, .string paymentHash),
          ("amount".toList, .number amount), ("fees_paid".toList, .number feesPaid),
          ("created_at".toList, .number createdAt), ("expires_at".toList, .number expiresAt),
          ("settled_at".toList, .number settledAt), ("metadata".toList, .object metadata)]) →
      json.parseInt64 amount = some a → json.parseInt64 feesPaid = some f →
      json.parseInt64 createdAt = some cr → json.parseInt64 expiresAt = some ex →
      json.parseInt64 settledAt = some st → json.membersFitInterface metadata = true →
      (LookupInvoice env c param).result =
        some { Type_ := type, Invoice := invoice, Description := description,
               DescriptionHash := descriptionHash, Preimage := preimage,
               PaymentHash := paymentHash, Amount := a, FeesPaid := f, CreatedAt := cr,
               ExpiresAt := ex, SettledAt := st, Metadata := some metadata } ∧
      (LookupInvoice env c param).err = none) ∧
    (∀ raw items records,
      Answers env c "list_transactions".toList [] raw →
      ResultOf raw (.object [("transactions".toList, .array items)]) →
      List.Forall₂ (fun item record => InvoiceDetails.decode {} item = .ok record) items records →
      (ListTransactions env c).result = some records ∧ (ListTransactions env c).err = none) ∧
    (∀ raw aliasText pubkey network methods color blockHeight height blockHash notifications,
      Answers env c "get_info".toList [] raw →
      ResultOf raw
        (.object [("alias".toList, .string aliasText), ("pubkey".toList, .string pubkey),
          ("network".toList, .string network),
          ("methods".toList, .array (methods.map JSON.string)),
          ("color".toList, .string color), ("block_height".toList, .number blockHeight),
          ("block_hash".toList, .string blockHash),
          ("notifications".toList, .array (notifications.map JSON.string))]) →
      json.parseInt64 blockHeight = some height →
      (GetInfo env c).result =
        some { Alias := aliasText, Pubkey := pubkey, Network := network, Methods := some methods,
               Color := color, BlockHeight := height, BlockHash := blockHash,
               Notifications := some notifications } ∧
      (GetInfo env c).err = none) ∧
    ((sendRequest (fakeEnv [walletEvent invoiceReply]) fakeClient "make_invoice".toList
        [("amount".toList, .int 1000), ("description".toList, .str "coffee".toList)]).value
        = invoiceReply ∧
      (MakeInvoice (fakeEnv [walletEvent invoiceReply]) fakeClient 1000 "coffee".toList).result
        = "lnbc1...".toList ∧
      (MakeInvoice (fakeEnv [walletEvent invoiceReply]) fakeClient 1000 "coffee".toList).err
        = none ∧
      (GetBalance (fakeEnv [walletEvent balanceReply21]) fakeClient).result
        = some { Balance := 21 } ∧
      (PayKeysend (fakeEnv [walletEvent paymentReply]) fakeClient "w2".toList 10).result
        = some { Preimage := "0123".toList, FeesPaid := 3 } ∧
      (ListTransactions (fakeEnv [walletEvent transactionsReply]) fakeClient).result
        = some [{ Type_ := "incoming".toList, Amount := 5 },
                { Type_ := "outgoing".toList, Invoice := "lnbc2".toList, FeesPaid := 1 }] ∧
      (GetInfo (fakeEnv [walletEvent infoReply]) fakeClient).result
        = some { Alias := "w".toList, Pubkey := "w1".toList, Network := "mainnet".toList,
                 Methods := some ["get_info".toList, "pay_invoice".toList],
                 Color := "#fff".toList, BlockHeight := 840000, BlockHash := "00ab".toList,
                 Notifications := some [] }) := by
  refine ⟨⟨call_carries _ _ _ _ _ _ _ _, fun _ _ => call_carries _ _ _ _ _ _ _ _,
    fun _ => call_carries _ _ _ _ _ _ _ _, fun _ _ => call_carries _ _ _ _ _ _ _ _,
    fun _ => call_carries _ _ _ _ _ _ _ _, call_carries _ _ _ _ _ _ _ _,
    call_carries _ _ _ _ _ _ _ _⟩, ?_, ?_, ?_, ?_, ?_, ?_, ?_,
    ⟨by decide, by decide, by decide, by decide, by decide, rfl, by decide⟩⟩
  · intro raw balance n hans hres hn
    exact call_of_result env c _ _ BalanceResult.decode (fun _ => rfl) {} none some raw _ _
      hans hres (BalanceResult.decode_balance_record balance n hn)
  · intro amount memo raw a b s hans hres hfit hone
    obtain ⟨d, hd, hinv⟩ := InvoiceDetails.decode_invoice a b s hfit hone
    have h := call_of_result env c _ _ InvoiceDetails.decode (fun _ => rfl) {} []
      (fun r => r.Invoice) raw _ d hans hres hd
    exact ⟨h.1.trans hinv, h.2⟩
  · intro invoice raw preimage feesPaid f hans hres hf
    exact call_of_result env c _ _ PaymentResult.decode (fun _ => rfl) {} none some raw _ _
      hans hres (PaymentResult.decode_payment_record preimage feesPaid f hf)
  · intro pubkey amount raw preimage feesPaid f hans hres hf
    exact call_of_result env c _ _ PaymentResult.decode (fun _ => rfl) {} none some raw _ _
      hans hres (PaymentResult.decode_payment_record preimage feesPaid f hf)
  · intro param raw type invoice description descriptionHash preimage paymentHash amount
      feesPaid createdAt expiresAt settledAt metadata a f cr ex st hans hres ha hf hcr hex hst hm
    exact call_of_result env c _ _ InvoiceDetails.decode (fun _ => rfl) {} none some raw _ _
      hans hres
      (InvoiceDetails.decode_invoice_record type invoice description descriptionHash preimage
        paymentHash amount feesPaid createdAt expiresAt settledAt metadata a f cr ex st
        ha hf hcr hex hst hm)
  · intro raw items records hans hres hrec
    exact call_of_result env c _ _ TransactionsResult.decode (fun _ => rfl) {} none
      (fun r => r.Transactions) raw _ _ hans hres
      (TransactionsResult.decode_transactions_record items records hrec)
  · intro raw aliasText pubkey network methods color blockHeight height blockHash notifications
      hans hres hh
    exact call_of_result env c _ _ InfoResult.decode (fun _ => rfl) {} none some raw _ _
      hans hres
      (InfoResult.decode_info_record aliasText pubkey network color blockHeight blockHash methods
        notifications height hh)

end NWC
